import Mathlib

/-!
# Wah-Wah plugin editor (`Wah-Wah/Source/PluginEditor.cpp`)

A shallow embedding of the editor class `WahWahAudioProcessorEditor`: its
constructor, `resized`, `timerCallback`, `updateUIcomponents` and the two
value-change handlers the constructor installs.

Conventions of the embedding.

* Widgets live in a heap (`heap : List Component`); a C++ pointer to a widget is
  its index, a possibly-null pointer is an `Option Nat`.  Dereferencing a null
  or dangling pointer makes the operation return `none`.
* Numeric control values (`double`, `float`, `int` in the source) are never
  computed with by this file, only stored, compared for equality and forwarded;
  they are carried by `Value`.  The `static_cast<float>` applied before a value
  is sent is kept symbolic (`Float32.ofDouble`, `Float32.ofInt`).
* Calls into the host framework that the properties talk about (`setSize`,
  `startTimer`, `sender.connect`, `sender.send`, `DBG`) are recorded in a trace
  (`List Call`).  The results of `connect` and `send` are inputs.
* The layout constants (`editorWidth`, `editorMargin`, ...) are declared in the
  header, which is not part of the sources at hand; they are the fields of
  `EditorConstants`.
* `int` arithmetic is carried out in `Int` and brought back to the 32-bit range
  by `wrapInt` after every operation.
-/

namespace WahWah

/-- Carrier of the numeric values of controls and parameters. -/
abbrev Value := Int

/-- Result of a `static_cast<float>`; the cast itself is kept symbolic. -/
inductive Float32 where
  | ofDouble (v : Value)
  | ofInt (n : Int)
deriving DecidableEq, Repr

/-! ## C++ `int` -/

/-- Result of a C++ `int` operation whose exact value is `x`: the representative
of `x` modulo `2^32` in the range from `-2^31` to `2^31 - 1` (overflow wraps). -/
def wrapInt (x : Int) : Int :=
  (x + 2147483648) % 4294967296 - 2147483648

/-- The value `x` is representable as a C++ `int`. -/
def fitsInt (x : Int) : Prop :=
  -2147483648 ≤ x ∧ x < 2147483648

instance (x : Int) : Decidable (fitsInt x) :=
  inferInstanceAs (Decidable (-2147483648 ≤ x ∧ x < 2147483648))

/-! ## `juce::Rectangle<int>` -/

/-- Integer rectangle: position of the top-left corner, width and height. -/
structure Rectangle where
  x : Int
  y : Int
  w : Int
  h : Int
deriving DecidableEq, Repr

namespace Rectangle

/-- Framework `Rectangle::reduced (delta)`: moves every edge inwards by `delta`,
width and height never dropping below zero. (The framework computes it as
`expanded (-delta)`; the `int` results are the ones below.) -/
def reduced (r : Rectangle) (delta : Int) : Rectangle :=
  { x := wrapInt (r.x + delta), y := wrapInt (r.y + delta),
    w := max 0 (wrapInt (r.w - wrapInt (delta * 2))),
    h := max 0 (wrapInt (r.h - wrapInt (delta * 2))) }

/-- Framework `Rectangle::removeFromTop`: the strip removed (first component) and
what is left of the rectangle (second component). -/
def removeFromTop (r : Rectangle) (amountToRemove : Int) : Rectangle × Rectangle :=
  let a := min amountToRemove r.h
  ({ x := r.x, y := r.y, w := r.w, h := a },
   { x := r.x, y := wrapInt (r.y + a), w := r.w, h := wrapInt (r.h - a) })

/-- Framework `Rectangle::removeFromRight`: the strip removed and what is left. -/
def removeFromRight (r : Rectangle) (amountToRemove : Int) : Rectangle × Rectangle :=
  let a := min amountToRemove r.w
  ({ x := wrapInt (wrapInt (r.x + r.w) - a), y := r.y, w := a, h := r.h },
   { x := r.x, y := r.y, w := wrapInt (r.w - a), h := r.h })

/-- Framework `Rectangle::removeFromBottom`: the strip removed and what is left. -/
def removeFromBottom (r : Rectangle) (amountToRemove : Int) : Rectangle × Rectangle :=
  let a := min amountToRemove r.h
  ({ x := r.x, y := wrapInt (wrapInt (r.y + r.h) - a), w := r.w, h := a },
   { x := r.x, y := r.y, w := r.w, h := wrapInt (r.h - a) })

/-- Bottom edge. -/
def bottom (r : Rectangle) : Int := r.y + r.h

/-- Framework `Rectangle::contains (Point)`: the point lies in the half-open box. -/
def containsPoint (r : Rectangle) (px py : Int) : Prop :=
  r.x ≤ px ∧ r.y ≤ py ∧ px < r.x + r.w ∧ py < r.y + r.h

/-- Framework `Rectangle::contains (Rectangle)`: edge-wise containment. -/
def containsRect (r other : Rectangle) : Prop :=
  r.x ≤ other.x ∧ r.y ≤ other.y ∧ other.x + other.w ≤ r.x + r.w ∧ other.y + other.h ≤ r.y + r.h

instance (r : Rectangle) (px py : Int) : Decidable (r.containsPoint px py) :=
  inferInstanceAs (Decidable (r.x ≤ px ∧ r.y ≤ py ∧ px < r.x + r.w ∧ py < r.y + r.h))

instance (r other : Rectangle) : Decidable (r.containsRect other) :=
  inferInstanceAs (Decidable (r.x ≤ other.x ∧ r.y ≤ other.y ∧
    other.x + other.w ≤ r.x + r.w ∧ other.y + other.h ≤ r.y + r.h))

end Rectangle

/-! ## The processor, as far as the editor reads it -/

/-- Layout constants of the editor class (declared in the header), used as `int`
values. -/
structure EditorConstants where
  editorWidth : Int
  editorMargin : Int
  editorPadding : Int
  sliderTextEntryBoxWidth : Int
  sliderTextEntryBoxHeight : Int
  sliderHeight : Int
  buttonHeight : Int
  comboBoxHeight : Int
  labelWidth : Int
deriving DecidableEq, Repr

/-- The members of an `AudioProcessorParameterWithID` the editor reads. -/
structure AudioProcessorParameterWithID where
  paramID : String
  name : String
  label : String
  defaultValue : Value
deriving DecidableEq, Repr

/-- An element of `processor.getParameters()`: `none` when the
`dynamic_cast<AudioProcessorParameterWithID*>` of line 37 yields null. -/
abbrev AudioProcessorParameter := Option AudioProcessorParameterWithID

/-- The members of `WahWahAudioProcessor` the editor reads. The five `param...`
fields are the `paramID`s of the processor members of the same name, and
`paramModeTargetValue` is `paramMode.getTargetValue()`. -/
structure WahWahAudioProcessor where
  getParameters : List AudioProcessorParameter
  parameterTypes : List String
  comboBoxItemLists : List (List String)
  paramModeTargetValue : Value
  modeAutomatic : Value
  centreFrequency : Value
  paramFrequency : String
  paramLFOfrequency : String
  paramMixLFOandEnvelope : String
  paramEnvelopeAttack : String
  paramEnvelopeRelease : String
deriving DecidableEq, Repr

/-! ## Widgets and the editor state -/

/-- Dynamic class of a widget. -/
inductive WidgetClass where
  | slider
  | toggleButton
  | comboBox
  | label
deriving DecidableEq, Repr

/-- The two lambdas of the constructor with their captures (`this` is implicit):
`[this, aSlider, parameter]` of lines 56-65 and `[this, aComboBox, parameter]` of
lines 100-109. Of `parameter` only `paramID` is read. -/
inductive Callback where
  | sliderOnValueChange (aSlider : Nat) (paramID : String)
  | comboBoxOnChange (aComboBox : Nat) (paramID : String)
deriving DecidableEq, Repr

/-- One widget object. Fields that a class does not have keep their default. -/
structure Component where
  cls : WidgetClass
  name : String := ""
  componentID : String := ""
  enabled : Bool := true
  visible : Bool := false
  bounds : Rectangle := ⟨0, 0, 0, 0⟩
  /-- `Slider::getValue` -/
  value : Value := 0
  /-- `ToggleButton::getToggleState` -/
  toggleState : Bool := false
  /-- `ComboBox::getSelectedId` -/
  selectedId : Int := 0
  /-- `Slider::setTextValueSuffix` -/
  textValueSuffix : String := ""
  /-- `Slider::setTextBoxStyle`: width and height of the text box on the left -/
  textBox : Option (Int × Int) := none
  /-- `ComboBox::addItemList`: the item texts, with IDs counting from `firstItemID` -/
  items : List String := []
  firstItemID : Int := 0
  /-- `Label`: the text, and the component the label is attached to -/
  text : String := ""
  attachedTo : Option Nat := none
  /-- `Slider::onValueChange` or `ComboBox::onChange` -/
  onChange : Option Callback := none
deriving DecidableEq, Repr

/-- A recorded call into the host framework. -/
inductive Call where
  | setSize (w h : Int)
  | startTimer (ms : Int)
  | connect (host : String) (port : Int)
  | send (address : String) (arg : Float32)
  | dbgValue (id : String) (v : Float32)
  | dbg (msg : String)
deriving DecidableEq, Repr

/-- State of the editor object. -/
structure WahWahAudioProcessorEditor where
  heap : List Component := []
  sliders : List Nat := []
  toggles : List Nat := []
  comboBoxes : List Nat := []
  labels : List Nat := []
  components : List Nat := []
  /-- attachments: parameter ID and attached widget -/
  sliderAttachments : List (String × Nat) := []
  buttonAttachments : List (String × Nat) := []
  comboBoxAttachments : List (String × Nat) := []
  /-- child components of the editor, in z-order -/
  children : List Nat := []
  width : Int := 0
  height : Int := 0
  timerInterval : Option Int := none
deriving DecidableEq, Repr

/-- Locals of the constructor that live across loop iterations. -/
structure CtorState where
  e : WahWahAudioProcessorEditor
  comboBoxCounter : Nat
  editorHeight : Int
deriving DecidableEq, Repr

namespace WahWahAudioProcessorEditor

/-! ### `resized` (lines 152-169) -/

/-- Framework `Component::setBounds (Rectangle)`: negative sizes become zero. (A
label attached to the component follows it; the bounds of labels are not
tracked.) -/
def setBounds (c : Component) (r : Rectangle) : Component :=
  { c with bounds := { x := r.x, y := r.y, w := max 0 r.w, h := max 0 r.h } }

/-- Loop of lines 157-168 over the remaining entries of `components`, with the
running rectangle `r`; returns the heap and the final `r`. The three
`dynamic_cast` tests are mutually exclusive and are rendered as one match on the
dynamic class. -/
def resizedLoop (L : EditorConstants) :
    List Nat → Rectangle → List Component → Option (List Component × Rectangle)
  | [], r, heap => some (heap, r)
  | c :: cs, r, heap =>
    match heap[c]? with
    | none => none
    | some w =>
      let step : List Component × Rectangle :=
        match w.cls with
        | .slider =>
          (heap.set c (setBounds w (r.removeFromTop L.sliderHeight).1),
            (r.removeFromTop L.sliderHeight).2)
        | .toggleButton =>
          (heap.set c (setBounds w (r.removeFromTop L.buttonHeight).1),
            (r.removeFromTop L.buttonHeight).2)
        | .comboBox =>
          (heap.set c (setBounds w (r.removeFromTop L.comboBoxHeight).1),
            (r.removeFromTop L.comboBoxHeight).2)
        | .label => (heap, r)
      resizedLoop L cs
        (step.2.removeFromBottom (wrapInt (step.2.h - L.editorPadding))).1 step.1

/-- Framework `getLocalBounds`. -/
def getLocalBounds (e : WahWahAudioProcessorEditor) : Rectangle :=
  { x := 0, y := 0, w := e.width, h := e.height }

/-- Rectangle `r` before the loop (lines 154-155). -/
def layoutArea (L : EditorConstants) (e : WahWahAudioProcessorEditor) : Rectangle :=
  (((getLocalBounds e).reduced L.editorMargin).removeFromRight
    (wrapInt (((getLocalBounds e).reduced L.editorMargin).w - L.labelWidth))).1

/-- Method `resized`. -/
def resized (L : EditorConstants) (e : WahWahAudioProcessorEditor) :
    Option (WahWahAudioProcessorEditor × List Call) :=
  match resizedLoop L e.components (layoutArea L e) e.heap with
  | none => none
  | some (heap, _) => some ({ e with heap := heap }, [])

/-- Framework `Component::setSize`: negative sizes become zero, and a change of
size calls the virtual `resized`. -/
def setSize (L : EditorConstants) (e : WahWahAudioProcessorEditor) (w h : Int) :
    Option (WahWahAudioProcessorEditor × List Call) :=
  if e.width = max 0 w ∧ e.height = max 0 h then some (e, [])
  else resized L { e with width := max 0 w, height := max 0 h }

/-! ### The constructor (lines 28-139) -/

/-- Lines 40-65: the `"Slider"` branch. -/
def addSlider (L : EditorConstants) (parameter : AudioProcessorParameterWithID)
    (s : CtorState) : CtorState :=
  let aSlider := s.e.heap.length
  let w : Component :=
    { cls := .slider,
      textValueSuffix := parameter.label,
      textBox := some (L.sliderTextEntryBoxWidth, L.sliderTextEntryBoxHeight),
      onChange := some (.sliderOnValueChange aSlider parameter.paramID) }
  { s with
    e := { s.e with
      heap := s.e.heap ++ [w],
      sliders := s.e.sliders ++ [aSlider],
      sliderAttachments := s.e.sliderAttachments ++ [(parameter.paramID, aSlider)],
      components := s.e.components ++ [aSlider] },
    editorHeight := wrapInt (s.editorHeight + L.sliderHeight) }

/-- Lines 71-80: the `"ToggleButton"` branch. -/
def addToggleButton (L : EditorConstants) (parameter : AudioProcessorParameterWithID)
    (s : CtorState) : CtorState :=
  let aButton := s.e.heap.length
  let w : Component :=
    { cls := .toggleButton,
      toggleState := decide (parameter.defaultValue ≠ 0) }
  { s with
    e := { s.e with
      heap := s.e.heap ++ [w],
      toggles := s.e.toggles ++ [aButton],
      buttonAttachments := s.e.buttonAttachments ++ [(parameter.paramID, aButton)],
      components := s.e.components ++ [aButton] },
    editorHeight := wrapInt (s.editorHeight + L.buttonHeight) }

/-- Lines 86-109: the `"ComboBox"` branch. -/
def addComboBox (L : EditorConstants) (P : WahWahAudioProcessor)
    (parameter : AudioProcessorParameterWithID) (s : CtorState) : CtorState :=
  let aComboBox := s.e.heap.length
  let w : Component :=
    { cls := .comboBox,
      items := (P.comboBoxItemLists[s.comboBoxCounter]?).getD [],
      firstItemID := 1,
      onChange := some (.comboBoxOnChange aComboBox parameter.paramID) }
  { e := { s.e with
      heap := s.e.heap ++ [w],
      comboBoxes := s.e.comboBoxes ++ [aComboBox],
      comboBoxAttachments := s.e.comboBoxAttachments ++ [(parameter.paramID, aComboBox)],
      components := s.e.components ++ [aComboBox] },
    comboBoxCounter := s.comboBoxCounter + 1,
    editorHeight := wrapInt (s.editorHeight + L.comboBoxHeight) }

/-- The label object created at line 115 for `parameter`, attached to `owner`. -/
def newLabel (parameter : AudioProcessorParameterWithID) (owner : Option Nat) : Component :=
  { cls := .label,
    name := parameter.name,
    text := parameter.name,
    attachedTo := owner,
    visible := true }

/-- Lines 114-121: the label, then name, ID and visibility of
`components.getLast()`. The label is a fresh object and becomes the last child
(through `attachToComponent` when its owner already is a child, otherwise through
`addAndMakeVisible`). `components.getLast()` is null on an empty array, and line
119 dereferences it. -/
def labelAndName (parameter : AudioProcessorParameterWithID)
    (e : WahWahAudioProcessorEditor) : Option WahWahAudioProcessorEditor :=
  let aLabel := e.heap.length
  let e1 : WahWahAudioProcessorEditor :=
    { e with
      heap := e.heap ++ [newLabel parameter e.components.getLast?],
      labels := e.labels ++ [aLabel],
      children := e.children ++ [aLabel] }
  match e1.components.getLast? with
  | none => none
  | some last =>
    match e1.heap[last]? with
    | none => none
    | some w =>
      let w1 : Component :=
        { w with name := parameter.name, componentID := parameter.paramID, visible := true }
      some { e1 with
        heap := e1.heap.set last w1,
        children := if last ∈ e1.children then e1.children else e1.children ++ [last] }

/-- Body of the loop of lines 35-123 for index `i` and `parameters[i]`. An index
past the end of `parameterTypes` reads as the empty string. -/
def ctorBody (L : EditorConstants) (P : WahWahAudioProcessor) (i : Nat)
    (param : AudioProcessorParameter) (s : CtorState) : Option CtorState :=
  match param with
  | none => some s
  | some parameter =>
    let s1 :=
      if (P.parameterTypes[i]?).getD "" = "Slider" then addSlider L parameter s
      else if (P.parameterTypes[i]?).getD "" = "ToggleButton" then addToggleButton L parameter s
      else if (P.parameterTypes[i]?).getD "" = "ComboBox" then addComboBox L P parameter s
      else s
    match labelAndName parameter s1.e with
    | none => none
    | some e => some { s1 with e := e }

/-- Loop of lines 35-123 from index `i` on, `ps` being `parameters[i..]`. -/
def ctorLoop (L : EditorConstants) (P : WahWahAudioProcessor) :
    Nat → List AudioProcessorParameter → CtorState → Option CtorState
  | _, [], s => some s
  | i, param :: ps, s =>
    match ctorBody L P i param s with
    | none => none
    | some s1 => ctorLoop L P (i + 1) ps s1

/-- The constructor. `connectOk` is the result of `sender.connect`. -/
def ctor (L : EditorConstants) (P : WahWahAudioProcessor) (connectOk : Bool) :
    Option (WahWahAudioProcessorEditor × List Call) :=
  match ctorLoop L P 0 P.getParameters
      { e := {}, comboBoxCounter := 0, editorHeight := wrapInt (2 * L.editorMargin) } with
  | none => none
  | some s =>
    match setSize L s.e L.editorWidth
        (wrapInt (s.editorHeight + wrapInt (s.e.components.length * L.editorPadding))) with
    | none => none
    | some (e, calls) =>
      some ({ e with timerInterval := some 50 },
        [Call.setSize L.editorWidth
            (wrapInt (s.editorHeight + wrapInt (s.e.components.length * L.editorPadding)))] ++ calls ++
        [Call.startTimer 50, Call.connect "127.0.0.1" 9001,
          if connectOk then Call.dbg "Connected to UDP port 9001."
          else Call.dbg "Error: could not connect to UDP port 9001."])

/-! ### The value-change handlers (lines 56-65 and 100-109) -/

/-- Runs a handler. `sendOk` is the result of `sender.send`. -/
def runCallback (e : WahWahAudioProcessorEditor) (cb : Callback) (sendOk : Bool) :
    Option (WahWahAudioProcessorEditor × List Call) :=
  match cb with
  | .sliderOnValueChange aSlider paramID =>
    match e.heap[aSlider]? with
    | none => none
    | some w =>
      if w.cls = .slider then
        some (e, [.dbgValue paramID (.ofDouble w.value),
          .send ("/param/" ++ paramID) (.ofDouble w.value)] ++
          if sendOk then [] else [.dbg "Error: could not send OSC message."])
      else none
  | .comboBoxOnChange aComboBox paramID =>
    match e.heap[aComboBox]? with
    | none => none
    | some w =>
      if w.cls = .comboBox then
        some (e, [.dbgValue paramID (.ofInt w.selectedId),
          .send ("/param/" ++ paramID) (.ofInt w.selectedId)] ++
          if sendOk then [] else [.dbg "Error: could not send OSC message."])
      else none

/-- Framework notification that the value of the control at `p` changed: the
handler stored in the control, if one was assigned, is invoked. -/
def valueChanged (e : WahWahAudioProcessorEditor) (p : Nat) (sendOk : Bool) :
    Option (WahWahAudioProcessorEditor × List Call) :=
  match e.heap[p]? with
  | none => none
  | some w =>
    match w.onChange with
    | none => some (e, [])
    | some cb => runCallback e cb sendOk

/-! ### `updateUIcomponents` and `timerCallback` (lines 173-195) -/

/-- Framework `Component::findChildWithID`: the first child with that ID, or null. -/
def findChildWithID (e : WahWahAudioProcessorEditor) (targetID : String) : Option Nat :=
  e.children.find? fun c =>
    match e.heap[c]? with
    | some w => w.componentID == targetID
    | none => false

/-- Statement `findChildWithID (id)->setEnabled (b)`; null is dereferenced. -/
def setChildEnabled (e : WahWahAudioProcessorEditor) (targetID : String) (b : Bool) :
    Option WahWahAudioProcessorEditor :=
  match findChildWithID e targetID with
  | none => none
  | some c =>
    match e.heap[c]? with
    | none => none
    | some w => some { e with heap := e.heap.set c { w with enabled := b } }

/-- Lines 181-182: when the child found is a `Slider`, its value is set. -/
def setFrequencySlider (P : WahWahAudioProcessor) (e : WahWahAudioProcessorEditor) :
    WahWahAudioProcessorEditor :=
  match findChildWithID e P.paramFrequency with
  | none => e
  | some c =>
    match e.heap[c]? with
    | none => e
    | some w =>
      if w.cls = .slider then
        { e with heap := e.heap.set c { w with value := P.centreFrequency } }
      else e

/-- Method `updateUIcomponents`. The statements of a branch run in source order,
each on the state left by the one before; a null dereference ends the run. -/
def updateUIcomponents (P : WahWahAudioProcessor) (e : WahWahAudioProcessorEditor) :
    Option (WahWahAudioProcessorEditor × List Call) :=
  if P.paramModeTargetValue = P.modeAutomatic then
    (setChildEnabled (setFrequencySlider P e) P.paramFrequency false).bind fun e1 =>
    (setChildEnabled e1 P.paramLFOfrequency true).bind fun e2 =>
    (setChildEnabled e2 P.paramMixLFOandEnvelope true).bind fun e3 =>
    (setChildEnabled e3 P.paramEnvelopeAttack true).bind fun e4 =>
    (setChildEnabled e4 P.paramEnvelopeRelease true).bind fun e5 =>
    some (e5, [])
  else
    (setChildEnabled e P.paramFrequency true).bind fun e1 =>
    (setChildEnabled e1 P.paramLFOfrequency false).bind fun e2 =>
    (setChildEnabled e2 P.paramMixLFOandEnvelope false).bind fun e3 =>
    (setChildEnabled e3 P.paramEnvelopeAttack false).bind fun e4 =>
    (setChildEnabled e4 P.paramEnvelopeRelease false).bind fun e5 =>
    some (e5, [])

/-- Method `timerCallback`. -/
def timerCallback (P : WahWahAudioProcessor) (e : WahWahAudioProcessorEditor) :
    Option (WahWahAudioProcessorEditor × List Call) :=
  updateUIcomponents P e

/-! ### Observations used in the statements -/

/-- Enabled flag of the widget at `c` (`none` for a dangling pointer). -/
def enabledAt (e : WahWahAudioProcessorEditor) (c : Nat) : Option Bool :=
  (e.heap[c]?).map fun w => w.enabled

/-- The values held by the widget at `c`: slider value, toggle state and
selected item ID. -/
def valueAt (e : WahWahAudioProcessorEditor) (c : Nat) : Option (Value × Bool × Int) :=
  (e.heap[c]?).map fun w => (w.value, w.toggleState, w.selectedId)

/-- Component ID and name of the widget at `c`. -/
def idNameAt (e : WahWahAudioProcessorEditor) (c : Nat) : Option (String × String) :=
  (e.heap[c]?).map fun w => (w.componentID, w.name)

/-- Bounds of the widget at `c`. -/
def boundsAt (e : WahWahAudioProcessorEditor) (c : Nat) : Option Rectangle :=
  (e.heap[c]?).map fun w => w.bounds

end WahWahAudioProcessorEditor

/-- The `connect` calls of a trace. -/
def connects (tr : List Call) : List Call :=
  tr.filter fun c => match c with
    | .connect _ _ => true
    | _ => false

/-- The `send` calls of a trace. -/
def sends (tr : List Call) : List Call :=
  tr.filter fun c => match c with
    | .send _ _ => true
    | _ => false

/-- A widget with its bounds blanked: everything `resized` leaves alone. -/
def Component.unplaced (w : Component) : Component :=
  { w with bounds := ⟨0, 0, 0, 0⟩ }

/-- A widget's class and handler: what the constructor fixes at allocation. -/
def Component.core (w : Component) : WidgetClass × Option Callback :=
  (w.cls, w.onChange)

/-- Height `resized` asks for, by dynamic class (a label takes none). -/
def nominalHeight (L : EditorConstants) : WidgetClass → Int
  | .slider => L.sliderHeight
  | .toggleButton => L.buttonHeight
  | .comboBox => L.comboBoxHeight
  | .label => 0

/-- Nominal height of the widget at `c` in `heap`. -/
def rowHeight (L : EditorConstants) (heap : List Component) (c : Nat) : Int :=
  match heap[c]? with
  | some w => nominalHeight L w.cls
  | none => 0

/-- The three type strings the constructor dispatches on. -/
def knownType (t : String) : Prop :=
  t = "Slider" ∨ t = "ToggleButton" ∨ t = "ComboBox"

instance (t : String) : Decidable (knownType t) :=
  inferInstanceAs (Decidable (t = "Slider" ∨ t = "ToggleButton" ∨ t = "ComboBox"))

/-- The parameters that have an ID, in list order. -/
def withIDs (ps : List AudioProcessorParameter) : List AudioProcessorParameterWithID :=
  ps.filterMap fun p => p

/-- The parameters with an ID whose entry in `types` (at the parameter's index,
counted from `i`) is `ty`, in list order. -/
def paramsOfTypeFrom (types : List String) (ty : String) :
    Nat → List AudioProcessorParameter → List AudioProcessorParameterWithID
  | _, [] => []
  | i, none :: ps => paramsOfTypeFrom types ty (i + 1) ps
  | i, some q :: ps =>
    if (types[i]?).getD "" = ty then q :: paramsOfTypeFrom types ty (i + 1) ps
    else paramsOfTypeFrom types ty (i + 1) ps

/-- The parameters of the processor with an ID and type string `ty`. -/
def paramsOfType (P : WahWahAudioProcessor) (ty : String) :
    List AudioProcessorParameterWithID :=
  paramsOfTypeFrom P.parameterTypes ty 0 P.getParameters

/-- Every widget of `heap` is still in `heap1`, with the same class and handler. -/
def HeapExt (heap heap1 : List Component) : Prop :=
  ∀ (c : Nat) (w : Component), heap[c]? = some w → ∃ w1, heap1[c]? = some w1 ∧ w1.core = w.core

/-- Invariant of the constructor loop, on the heap, the `components` array, the
local `editorHeight` and the slider and combo box attachments: the components are
distinct live widgets that are not labels, `editorHeight` is twice the margin plus
their nominal heights, and every attached slider or combo box carries the handler
that captures itself and the ID of the parameter it is attached to. -/
structure CtorInv (L : EditorConstants) (heap : List Component) (components : List Nat)
    (editorHeight : Int) (sliderAttachments comboBoxAttachments : List (String × Nat)) :
    Prop where
  live : ∀ c ∈ components, ∃ w, heap[c]? = some w ∧ w.cls ≠ .label
  nodup : components.Nodup
  height : editorHeight
    = wrapInt (2 * L.editorMargin + (components.map (rowHeight L heap)).sum)
  sliders : ∀ p c, (p, c) ∈ sliderAttachments →
    ∃ w, heap[c]? = some w ∧ w.cls = .slider ∧ w.onChange = some (.sliderOnValueChange c p)
  combos : ∀ p c, (p, c) ∈ comboBoxAttachments →
    ∃ w, heap[c]? = some w ∧ w.cls = .comboBox ∧ w.onChange = some (.comboBoxOnChange c p)

/-- The loop invariant `CtorInv` on the locals of the constructor. -/
def ctorInv (L : EditorConstants) (s : CtorState) : Prop :=
  CtorInv L s.e.heap s.e.components s.editorHeight s.e.sliderAttachments
    s.e.comboBoxAttachments

/-- Bookkeeping invariant of the constructor loop: the attachment arrays run in
step with the widget arrays, every component is in exactly one widget array, and
`editorHeight` is twice the margin plus the per-class heights times the lengths
of the widget arrays. -/
def ctorCounts (L : EditorConstants) (s : CtorState) : Prop :=
  s.e.sliderAttachments.map Prod.snd = s.e.sliders ∧
  s.e.buttonAttachments.map Prod.snd = s.e.toggles ∧
  s.e.comboBoxAttachments.map Prod.snd = s.e.comboBoxes ∧
  s.e.components.length = s.e.sliders.length + s.e.toggles.length + s.e.comboBoxes.length ∧
  s.editorHeight = wrapInt (2 * L.editorMargin + L.sliderHeight * s.e.sliders.length
    + L.buttonHeight * s.e.toggles.length + L.comboBoxHeight * s.e.comboBoxes.length)

/-- Rectangle `r` at the end of one iteration of the loop of `resized`, for a
component of dynamic class `k`: the row is cut off the top (not for a label),
then the padding. -/
def afterRow (L : EditorConstants) (k : WidgetClass) (r : Rectangle) : Rectangle :=
  match k with
  | .label => (r.removeFromBottom (wrapInt (r.h - L.editorPadding))).1
  | _ =>
    ((r.removeFromTop (nominalHeight L k)).2.removeFromBottom
      (wrapInt ((r.removeFromTop (nominalHeight L k)).2.h - L.editorPadding))).1

/-- Heap at the end of one iteration of the loop of `resized` for the component
`c`, which is the widget `w`. -/
def placeRow (L : EditorConstants) (heap : List Component) (c : Nat) (w : Component)
    (r : Rectangle) : List Component :=
  match w.cls with
  | .label => heap
  | _ => heap.set c (WahWahAudioProcessorEditor.setBounds w
      (r.removeFromTop (nominalHeight L w.cls)).1)

/-- Sum of the nominal heights of `cs`, each with one padding. -/
def stackHeight (L : EditorConstants) (heap : List Component) (cs : List Nat) : Int :=
  (cs.map fun c => rowHeight L heap c + L.editorPadding).sum

/-- Top of the `i`-th row of the stack: the margin plus, for every earlier
component, its nominal height and one padding. -/
def rowTop (L : EditorConstants) (heap : List Component) (components : List Nat)
    (i : Nat) : Int :=
  L.editorMargin + stackHeight L heap (components.take i)

/-- The first parameter with an ID, if there is one, has a known type string (at
its index, counted from `i`). -/
def firstWithIDTyped (types : List String) : Nat → List AudioProcessorParameter → Prop
  | _, [] => True
  | i, none :: ps => firstWithIDTyped types (i + 1) ps
  | i, some _ :: _ => knownType ((types[i]?).getD "")

/-! ### Sample inputs -/

/-- Layout constants of the sample editor. -/
def sampleConstants : EditorConstants :=
  { editorWidth := 500, editorMargin := 10, editorPadding := 10,
    sliderTextEntryBoxWidth := 100, sliderTextEntryBoxHeight := 25,
    sliderHeight := 25, buttonHeight := 25, comboBoxHeight := 25, labelWidth := 100 }

/-- A parameter with an ID. -/
def sampleParameter (id : String) : AudioProcessorParameter :=
  some { paramID := id, name := id, label := "", defaultValue := 0 }

/-- A processor with a mode combo box and the five mode-dependent sliders, in
automatic mode (`1`). -/
def sampleProcessor : WahWahAudioProcessor :=
  { getParameters := [sampleParameter "mode", sampleParameter "f", sampleParameter "l",
      sampleParameter "m", sampleParameter "a", sampleParameter "r"],
    parameterTypes := ["ComboBox", "Slider", "Slider", "Slider", "Slider", "Slider"],
    comboBoxItemLists := [["Manual", "Automatic"]],
    paramModeTargetValue := 1, modeAutomatic := 1, centreFrequency := 300,
    paramFrequency := "f", paramLFOfrequency := "l", paramMixLFOandEnvelope := "m",
    paramEnvelopeAttack := "a", paramEnvelopeRelease := "r" }

/-- A processor whose list has a slider, a parameter without an ID, a parameter of
an unknown type and a toggle button. -/
def mixedProcessor : WahWahAudioProcessor :=
  { sampleProcessor with
    getParameters := [sampleParameter "f", none, sampleParameter "k", sampleParameter "t"],
    parameterTypes := ["Slider", "Slider", "Knob", "ToggleButton"] }

/-- A processor whose list has a slider followed by a parameter of an unknown
type, both with an ID. -/
def knobProcessor : WahWahAudioProcessor :=
  { sampleProcessor with
    getParameters := [sampleParameter "f", sampleParameter "k"],
    parameterTypes := ["Slider", "Knob"] }

/-- The statement "after construction `components` holds exactly one control per
parameter that has an ID, in parameter order, the `k`-th control carrying the ID
and the name of the `k`-th such parameter". -/
def componentsMatchParameters (L : EditorConstants) (P : WahWahAudioProcessor)
    (ok : Bool) : Prop :=
  ∃ e tr, WahWahAudioProcessorEditor.ctor L P ok = some (e, tr) ∧
    e.components.map (WahWahAudioProcessorEditor.idNameAt e)
      = (withIDs P.getParameters).map (fun q => some (q.paramID, q.name))

/-- A processor whose list is one toggle button. -/
def toggleProcessor : WahWahAudioProcessor :=
  { sampleProcessor with
    getParameters := [sampleParameter "t"],
    parameterTypes := ["ToggleButton"] }

/-- A processor whose list is two sliders. -/
def twoSliderProcessor : WahWahAudioProcessor :=
  { sampleProcessor with
    getParameters := [sampleParameter "f", sampleParameter "l"],
    parameterTypes := ["Slider", "Slider"] }

/-- A processor whose list is a slider and a toggle button. -/
def sliderToggleProcessor : WahWahAudioProcessor :=
  { sampleProcessor with
    getParameters := [sampleParameter "f", sampleParameter "t"],
    parameterTypes := ["Slider", "ToggleButton"] }

/-- The sample constants with a slider height of two thousand million. -/
def tallConstants : EditorConstants :=
  { sampleConstants with sliderHeight := 2000000000 }

/-- The sample constants with an editor narrower than the label column. -/
def narrowConstants : EditorConstants :=
  { sampleConstants with editorWidth := 50 }

/-- The editor a construction leaves (the empty editor if it does not complete). -/
def builtEditor (L : EditorConstants) (P : WahWahAudioProcessor) (ok : Bool) :
    WahWahAudioProcessorEditor :=
  match WahWahAudioProcessorEditor.ctor L P ok with
  | some (e, _) => e
  | none => {}

/-- The calls a construction makes (none if it does not complete). -/
def builtTrace (L : EditorConstants) (P : WahWahAudioProcessor) (ok : Bool) : List Call :=
  match WahWahAudioProcessorEditor.ctor L P ok with
  | some (_, tr) => tr
  | none => []

/-- The editor built for `sampleProcessor`. -/
def sampleEditor : WahWahAudioProcessorEditor :=
  builtEditor sampleConstants sampleProcessor true

/-- The calls made when building `sampleEditor`. -/
def sampleTrace : List Call :=
  builtTrace sampleConstants sampleProcessor true

/-- The editor `resized` leaves when run on `e` (the empty editor if it does not
complete). -/
def resizedEditor (L : EditorConstants) (e : WahWahAudioProcessorEditor) :
    WahWahAudioProcessorEditor :=
  match WahWahAudioProcessorEditor.resized L e with
  | some (e1, _) => e1
  | none => {}

/-- The exact value of `2 * editorMargin + sliderHeight * #sliders + buttonHeight *
#toggles + comboBoxHeight * #comboBoxes + editorPadding * #components` for the
widgets of `e`. -/
def statedHeight (L : EditorConstants) (e : WahWahAudioProcessorEditor) : Int :=
  2 * L.editorMargin + L.sliderHeight * e.sliders.length
    + L.buttonHeight * e.toggles.length + L.comboBoxHeight * e.comboBoxes.length
    + L.editorPadding * e.components.length

/-- The statement "the constructor passes `editorWidth` and the exact value
`statedHeight` to `setSize`". -/
def sizeAsStated (L : EditorConstants) (P : WahWahAudioProcessor) (ok : Bool) : Prop :=
  ∃ e tr, WahWahAudioProcessorEditor.ctor L P ok = some (e, tr) ∧
    Call.setSize L.editorWidth (statedHeight L e) ∈ tr

/-- The statement on the `i`-th component `c`, for the editor `e` and the editor
`e1` that `resized` leaves: the top of its bounds is the margin plus the nominal
heights and paddings of the earlier components, its height is its nominal height,
and the local bounds reduced by the margin contain its bounds. -/
def rowAsStated (L : EditorConstants) (e e1 : WahWahAudioProcessorEditor) (i c : Nat) :
    Prop :=
  ∃ w b, e.heap[c]? = some w ∧ WahWahAudioProcessorEditor.boundsAt e1 c = some b ∧
    b.y = rowTop L e.heap e.components i ∧ b.h = nominalHeight L w.cls ∧
    ((WahWahAudioProcessorEditor.getLocalBounds e1).reduced L.editorMargin).containsRect b

/-- The statement "on the editor the constructor leaves, `resized` places every
component as `rowAsStated` says". -/
def stackAsStated (L : EditorConstants) (P : WahWahAudioProcessor) (ok : Bool) : Prop :=
  ∃ e tr e1, WahWahAudioProcessorEditor.ctor L P ok = some (e, tr) ∧
    WahWahAudioProcessorEditor.resized L e = some (e1, []) ∧
    ∀ (i c : Nat), e.components[i]? = some c → rowAsStated L e e1 i c

/-- The editor `updateUIcomponents` leaves when run on `sampleEditor`. -/
def sampleUpdated : WahWahAudioProcessorEditor :=
  match WahWahAudioProcessorEditor.updateUIcomponents sampleProcessor sampleEditor with
  | some (e, _) => e
  | none => {}

open WahWahAudioProcessorEditor

/-! ## Properties -/

/-! ### `int` arithmetic -/

theorem wrapInt_of_fits {x : Int} (h : fitsInt x) : wrapInt x = x := by
  unfold fitsInt at h
  unfold wrapInt
  omega

theorem wrapInt_wrapInt_add (a b : Int) : wrapInt (wrapInt a + b) = wrapInt (a + b) := by
  unfold wrapInt
  omega

theorem wrapInt_add_wrapInt (a b : Int) : wrapInt (a + wrapInt b) = wrapInt (a + b) := by
  unfold wrapInt
  omega


/-! ### Lookups by ID -/

theorem findChildWithID_congr (e e1 : WahWahAudioProcessorEditor)
    (hc : e1.children = e.children)
    (hid : ∀ p : Nat, (e1.heap[p]?).map (fun w : Component => w.componentID)
      = (e.heap[p]?).map (fun w : Component => w.componentID)) (targetID : String) :
    findChildWithID e1 targetID = findChildWithID e targetID := by
  unfold findChildWithID
  rw [hc]
  congr 1
  funext c
  have h := hid c
  cases h1 : e1.heap[c]? <;> cases h2 : e.heap[c]? <;> simp_all

theorem findChildWithID_some {e : WahWahAudioProcessorEditor} {targetID : String} {c : Nat}
    (h : findChildWithID e targetID = some c) :
    c ∈ e.children ∧ ∃ w, e.heap[c]? = some w ∧ w.componentID = targetID := by
  unfold findChildWithID at h
  refine ⟨List.mem_of_find?_eq_some h, ?_⟩
  have hp := List.find?_some h
  cases hw : e.heap[c]? with
  | none => simp [hw] at hp
  | some w => exact ⟨w, rfl, by simpa [hw] using hp⟩

theorem lt_of_getElem?_some {α : Type} {l : List α} {c : Nat} {w : α}
    (hw : l[c]? = some w) : c < l.length := by
  rcases Nat.lt_or_ge c l.length with h | h
  · exact h
  · rw [List.getElem?_eq_none h] at hw; cases hw

/-- Replacing a widget by one that agrees with it under `f` leaves the `f`-view
of the whole heap unchanged. -/
theorem heap_set_view {α : Type} (f : Component → α) (heap : List Component) (c : Nat)
    (w w1 : Component) (hw : heap[c]? = some w) (hf : f w1 = f w) (p : Nat) :
    ((heap.set c w1)[p]?).map f = (heap[p]?).map f := by
  rw [List.getElem?_set]
  by_cases hcp : c = p
  · subst hcp
    simp [lt_of_getElem?_some hw, hw, hf]
  · simp [hcp]

theorem setChildEnabled_eq (e : WahWahAudioProcessorEditor) (targetID : String) (b : Bool)
    (c : Nat) (h : findChildWithID e targetID = some c) :
    ∃ w, e.heap[c]? = some w ∧
      setChildEnabled e targetID b
        = some { e with heap := e.heap.set c { w with enabled := b } } := by
  obtain ⟨_, w, hw, _⟩ := findChildWithID_some h
  exact ⟨w, hw, by simp [setChildEnabled, h, hw]⟩

theorem setChildEnabled_some (e e1 : WahWahAudioProcessorEditor) (targetID : String)
    (b : Bool) (h : setChildEnabled e targetID b = some e1) :
    ∃ c w, findChildWithID e targetID = some c ∧ e.heap[c]? = some w ∧
      e1 = { e with heap := e.heap.set c { w with enabled := b } } := by
  unfold setChildEnabled at h
  cases hc : findChildWithID e targetID with
  | none => simp [hc] at h
  | some c =>
    cases hw : e.heap[c]? with
    | none => simp [hc, hw] at h
    | some w =>
      simp only [hc, hw, Option.some.injEq] at h
      exact ⟨c, w, rfl, hw, h.symm⟩

theorem findChildWithID_setEnabled (e : WahWahAudioProcessorEditor) (c : Nat) (w : Component)
    (b : Bool) (hw : e.heap[c]? = some w) (targetID : String) :
    findChildWithID { e with heap := e.heap.set c { w with enabled := b } } targetID
      = findChildWithID e targetID :=
  findChildWithID_congr e { e with heap := e.heap.set c { w with enabled := b } } rfl
    (fun p => heap_set_view (fun w => w.componentID) e.heap c w
      { w with enabled := b } hw rfl p) targetID

theorem setFrequencySlider_cases (P : WahWahAudioProcessor) (e : WahWahAudioProcessorEditor) :
    setFrequencySlider P e = e ∨
    ∃ c w, findChildWithID e P.paramFrequency = some c ∧ e.heap[c]? = some w ∧
      w.cls = .slider ∧
      setFrequencySlider P e
        = { e with heap := e.heap.set c { w with value := P.centreFrequency } } := by
  cases hc : findChildWithID e P.paramFrequency with
  | none => exact Or.inl (by simp [setFrequencySlider, hc])
  | some c =>
    cases hw : e.heap[c]? with
    | none => exact Or.inl (by simp [setFrequencySlider, hc, hw])
    | some w =>
      by_cases hs : w.cls = .slider
      · exact Or.inr ⟨c, w, rfl, hw, hs, by simp [setFrequencySlider, hc, hw, hs]⟩
      · exact Or.inl (by simp [setFrequencySlider, hc, hw, hs])

theorem findChildWithID_setFrequencySlider (P : WahWahAudioProcessor)
    (e : WahWahAudioProcessorEditor) (targetID : String) :
    findChildWithID (setFrequencySlider P e) targetID = findChildWithID e targetID := by
  rcases setFrequencySlider_cases P e with h | ⟨c, w, _, hw, _, h⟩
  · rw [h]
  · rw [h]
    exact findChildWithID_congr e
      { e with heap := e.heap.set c { w with value := P.centreFrequency } } rfl
      (fun p => heap_set_view (fun w => w.componentID) e.heap c w
        { w with value := P.centreFrequency } hw rfl p) targetID

theorem enabledAt_setFrequencySlider (P : WahWahAudioProcessor)
    (e : WahWahAudioProcessorEditor) (p : Nat) :
    enabledAt (setFrequencySlider P e) p = enabledAt e p := by
  rcases setFrequencySlider_cases P e with h | ⟨c, w, _, hw, _, h⟩
  · rw [h]
  · rw [h]
    exact heap_set_view (fun w => w.enabled) e.heap c w
      { w with value := P.centreFrequency } hw rfl p

theorem enabledAt_setEnabled (e : WahWahAudioProcessorEditor) (c : Nat) (w : Component)
    (b : Bool) (hw : e.heap[c]? = some w) (p : Nat) :
    enabledAt { e with heap := e.heap.set c { w with enabled := b } } p
      = if p = c then some b else enabledAt e p := by
  unfold enabledAt
  have hlt : c < e.heap.length := lt_of_getElem?_some hw
  simp only [List.getElem?_set]
  by_cases hcp : c = p
  · subst hcp; simp [hlt]
  · have hpc : ¬ p = c := fun h => hcp h.symm
    simp [hcp, hpc]

theorem valueAt_setEnabled (e : WahWahAudioProcessorEditor) (c : Nat) (w : Component)
    (b : Bool) (hw : e.heap[c]? = some w) (p : Nat) :
    valueAt { e with heap := e.heap.set c { w with enabled := b } } p = valueAt e p :=
  heap_set_view (fun w => (w.value, w.toggleState, w.selectedId)) e.heap c w
    { w with enabled := b } hw rfl p

theorem valueAt_setChildEnabled (e e1 : WahWahAudioProcessorEditor) (targetID : String)
    (b : Bool) (h : setChildEnabled e targetID b = some e1) (p : Nat) :
    valueAt e1 p = valueAt e p := by
  obtain ⟨c, w, _, hw, rfl⟩ := setChildEnabled_some e e1 targetID b h
  exact valueAt_setEnabled e c w b hw p

/-! ### `updateUIcomponents` -/

theorem setChildEnabled_step (e : WahWahAudioProcessorEditor) (targetID : String) (b : Bool)
    (c : Nat) (h : findChildWithID e targetID = some c) :
    ∃ e1, setChildEnabled e targetID b = some e1 ∧
      (∀ t, findChildWithID e1 t = findChildWithID e t) ∧
      (∀ p, enabledAt e1 p = if p = c then some b else enabledAt e p) ∧
      (∀ p, valueAt e1 p = valueAt e p) := by
  obtain ⟨w, hw, hs⟩ := setChildEnabled_eq e targetID b c h
  exact ⟨_, hs, findChildWithID_setEnabled e c w b hw, enabledAt_setEnabled e c w b hw,
    valueAt_setEnabled e c w b hw⟩

/-- The five `setEnabled` statements of one branch, run in source order. -/
theorem setChildEnabled_chain (e : WahWahAudioProcessorEditor) (tf tl tm ta tr : String)
    (b0 b : Bool) (cf cl cm ca cr : Nat)
    (hf : findChildWithID e tf = some cf) (hl : findChildWithID e tl = some cl)
    (hm : findChildWithID e tm = some cm) (ha : findChildWithID e ta = some ca)
    (hr : findChildWithID e tr = some cr) :
    ∃ e1 e2 e3 e4 e5,
      setChildEnabled e tf b0 = some e1 ∧ setChildEnabled e1 tl b = some e2 ∧
      setChildEnabled e2 tm b = some e3 ∧ setChildEnabled e3 ta b = some e4 ∧
      setChildEnabled e4 tr b = some e5 ∧
      (∀ t, findChildWithID e5 t = findChildWithID e t) ∧
      (∀ p, enabledAt e5 p =
        if p = cr then some b else if p = ca then some b else if p = cm then some b
        else if p = cl then some b else if p = cf then some b0 else enabledAt e p) ∧
      (∀ p, valueAt e5 p = valueAt e p) := by
  obtain ⟨e1, h1, f1, n1, v1⟩ := setChildEnabled_step e tf b0 cf hf
  obtain ⟨e2, h2, f2, n2, v2⟩ := setChildEnabled_step e1 tl b cl (by rw [f1]; exact hl)
  obtain ⟨e3, h3, f3, n3, v3⟩ := setChildEnabled_step e2 tm b cm (by rw [f2, f1]; exact hm)
  obtain ⟨e4, h4, f4, n4, v4⟩ := setChildEnabled_step e3 ta b ca (by rw [f3, f2, f1]; exact ha)
  obtain ⟨e5, h5, f5, n5, v5⟩ :=
    setChildEnabled_step e4 tr b cr (by rw [f4, f3, f2, f1]; exact hr)
  refine ⟨e1, e2, e3, e4, e5, h1, h2, h3, h4, h5, ?_, ?_, ?_⟩
  · intro t; rw [f5, f4, f3, f2, f1]
  · intro p; rw [n5, n4, n3, n2, n1]
  · intro p; rw [v5, v4, v3, v2, v1]

/-! ### One iteration of the constructor loop -/

theorem labelAndName_some {q : AudioProcessorParameterWithID}
    {e e1 : WahWahAudioProcessorEditor} (h : labelAndName q e = some e1) :
    ∃ last w, e.components.getLast? = some last ∧
      (e.heap ++ [newLabel q e.components.getLast?])[last]? = some w ∧
      e1 = { e with
        heap := (e.heap ++ [newLabel q e.components.getLast?]).set last
          { w with name := q.name, componentID := q.paramID, visible := true },
        labels := e.labels ++ [e.heap.length],
        children :=
          if last ∈ e.children ++ [e.heap.length] then e.children ++ [e.heap.length]
          else e.children ++ [e.heap.length] ++ [last] } := by
  unfold labelAndName at h
  cases hl : e.components.getLast? with
  | none => simp [hl] at h
  | some last =>
    simp only [hl] at h
    cases hw : (e.heap ++ [newLabel q (some last)])[last]? with
    | none => simp [hw] at h
    | some w =>
      simp only [hw, Option.some.injEq] at h
      exact ⟨last, w, rfl, hw, h.symm⟩

theorem ctorBody_cases {L : EditorConstants} {P : WahWahAudioProcessor} {i : Nat}
    {param : AudioProcessorParameter} {s s1 : CtorState}
    (h : ctorBody L P i param s = some s1) :
    (param = none ∧ s1 = s) ∨
    ∃ q s0 e1, param = some q ∧
      ((P.parameterTypes[i]?).getD "" = "Slider" ∧ s0 = addSlider L q s ∨
       (P.parameterTypes[i]?).getD "" = "ToggleButton" ∧ s0 = addToggleButton L q s ∨
       (P.parameterTypes[i]?).getD "" = "ComboBox" ∧ s0 = addComboBox L P q s ∨
       ¬ knownType ((P.parameterTypes[i]?).getD "") ∧ s0 = s) ∧
      labelAndName q s0.e = some e1 ∧ s1 = { s0 with e := e1 } := by
  cases param with
  | none =>
    simp only [ctorBody, Option.some.injEq] at h
    exact Or.inl ⟨rfl, h.symm⟩
  | some q =>
    right
    simp only [ctorBody] at h
    by_cases h1 : (P.parameterTypes[i]?).getD "" = "Slider"
    · rw [if_pos h1] at h
      cases hl : labelAndName q (addSlider L q s).e with
      | none => simp [hl] at h
      | some e1 =>
        simp only [hl, Option.some.injEq] at h
        exact ⟨q, _, e1, rfl, Or.inl ⟨h1, rfl⟩, hl, h.symm⟩
    · by_cases h2 : (P.parameterTypes[i]?).getD "" = "ToggleButton"
      · rw [if_neg h1, if_pos h2] at h
        cases hl : labelAndName q (addToggleButton L q s).e with
        | none => simp [hl] at h
        | some e1 =>
          simp only [hl, Option.some.injEq] at h
          exact ⟨q, _, e1, rfl, Or.inr (Or.inl ⟨h2, rfl⟩), hl, h.symm⟩
      · by_cases h3 : (P.parameterTypes[i]?).getD "" = "ComboBox"
        · rw [if_neg h1, if_neg h2, if_pos h3] at h
          cases hl : labelAndName q (addComboBox L P q s).e with
          | none => simp [hl] at h
          | some e1 =>
            simp only [hl, Option.some.injEq] at h
            exact ⟨q, _, e1, rfl, Or.inr (Or.inr (Or.inl ⟨h3, rfl⟩)), hl, h.symm⟩
        · rw [if_neg h1, if_neg h2, if_neg h3] at h
          cases hl : labelAndName q s.e with
          | none => simp [hl] at h
          | some e1 =>
            simp only [hl, Option.some.injEq] at h
            refine ⟨q, _, e1, rfl, Or.inr (Or.inr (Or.inr ⟨?_, rfl⟩)), hl, h.symm⟩
            unfold knownType
            tauto

/-! ### The heap invariant of the constructor loop -/

theorem HeapExt.refl (heap : List Component) : HeapExt heap heap :=
  fun _ w hw => ⟨w, hw, rfl⟩

theorem HeapExt.trans {h1 h2 h3 : List Component} (a : HeapExt h1 h2) (b : HeapExt h2 h3) :
    HeapExt h1 h3 := by
  intro c w hw
  obtain ⟨w2, hw2, hc2⟩ := a c w hw
  obtain ⟨w3, hw3, hc3⟩ := b c w2 hw2
  exact ⟨w3, hw3, hc3.trans hc2⟩

theorem HeapExt.append (heap l : List Component) : HeapExt heap (heap ++ l) := by
  intro c w hw
  exact ⟨w, by rw [List.getElem?_append_left (lt_of_getElem?_some hw)]; exact hw, rfl⟩

theorem HeapExt.set {heap : List Component} {c : Nat} {w w1 : Component}
    (hw : heap[c]? = some w) (hcore : w1.core = w.core) : HeapExt heap (heap.set c w1) := by
  intro p v hv
  rw [List.getElem?_set]
  by_cases hcp : c = p
  · subst hcp
    rw [hw] at hv
    injection hv with hv
    subst hv
    exact ⟨w1, by simp [lt_of_getElem?_some hw], hcore⟩
  · exact ⟨v, by simp [hcp, hv], rfl⟩

theorem HeapExt.cls {heap heap1 : List Component} (hext : HeapExt heap heap1) {c : Nat}
    {w : Component} (hw : heap[c]? = some w) :
    ∃ w1, heap1[c]? = some w1 ∧ w1.cls = w.cls ∧ w1.onChange = w.onChange := by
  obtain ⟨w1, hw1, hc⟩ := hext c w hw
  simp only [Component.core, Prod.mk.injEq] at hc
  exact ⟨w1, hw1, hc.1, hc.2⟩

theorem rowHeight_ext (L : EditorConstants) {heap heap1 : List Component}
    (hext : HeapExt heap heap1) {c : Nat} {w : Component} (hw : heap[c]? = some w) :
    rowHeight L heap1 c = rowHeight L heap c := by
  obtain ⟨w1, hw1, hc, _⟩ := hext.cls hw
  simp [rowHeight, hw, hw1, hc]

theorem rowHeight_map_ext (L : EditorConstants) {heap heap1 : List Component}
    (hext : HeapExt heap heap1) (cs : List Nat)
    (hlive : ∀ c ∈ cs, ∃ w, heap[c]? = some w ∧ w.cls ≠ .label) :
    cs.map (rowHeight L heap1) = cs.map (rowHeight L heap) := by
  apply List.map_congr_left
  intro c hc
  obtain ⟨w, hw, _⟩ := hlive c hc
  exact rowHeight_ext L hext hw

theorem CtorInv.mono {L : EditorConstants} {heap heap1 : List Component} {cs : List Nat}
    {H : Int} {sa ca : List (String × Nat)} (hinv : CtorInv L heap cs H sa ca)
    (hext : HeapExt heap heap1) : CtorInv L heap1 cs H sa ca where
  live := by
    intro c hc
    obtain ⟨w, hw, hl⟩ := hinv.live c hc
    obtain ⟨w1, hw1, hc1, _⟩ := hext.cls hw
    exact ⟨w1, hw1, by rw [hc1]; exact hl⟩
  nodup := hinv.nodup
  height := by rw [rowHeight_map_ext L hext cs hinv.live]; exact hinv.height
  sliders := by
    intro p c hpc
    obtain ⟨w, hw, hk, hcb⟩ := hinv.sliders p c hpc
    obtain ⟨w1, hw1, hc1, ho1⟩ := hext.cls hw
    exact ⟨w1, hw1, by rw [hc1]; exact hk, by rw [ho1]; exact hcb⟩
  combos := by
    intro p c hpc
    obtain ⟨w, hw, hk, hcb⟩ := hinv.combos p c hpc
    obtain ⟨w1, hw1, hc1, ho1⟩ := hext.cls hw
    exact ⟨w1, hw1, by rw [hc1]; exact hk, by rw [ho1]; exact hcb⟩

/-- Allocating a widget that is not a label and appending it to `components`. -/
theorem CtorInv.push {L : EditorConstants} {heap : List Component} {cs : List Nat}
    {H : Int} {sa ca sa1 ca1 : List (String × Nat)} (hinv : CtorInv L heap cs H sa ca)
    (w : Component) (hcls : w.cls ≠ .label)
    (hsa : ∀ p c, (p, c) ∈ sa1 → (p, c) ∈ sa ∨
      (c = heap.length ∧ w.cls = .slider ∧ w.onChange = some (.sliderOnValueChange c p)))
    (hca : ∀ p c, (p, c) ∈ ca1 → (p, c) ∈ ca ∨
      (c = heap.length ∧ w.cls = .comboBox ∧ w.onChange = some (.comboBoxOnChange c p))) :
    CtorInv L (heap ++ [w]) (cs ++ [heap.length]) (wrapInt (H + nominalHeight L w.cls))
      sa1 ca1 := by
  have hext : HeapExt heap (heap ++ [w]) := HeapExt.append heap [w]
  have hm := hinv.mono hext
  have hnew : (heap ++ [w])[heap.length]? = some w := List.getElem?_concat_length heap w
  refine ⟨?_, ?_, ?_, ?_, ?_⟩
  · intro c hc
    rcases List.mem_append.1 hc with h | h
    · exact hm.live c h
    · rw [List.mem_singleton] at h
      subst h
      exact ⟨w, hnew, hcls⟩
  · rw [List.nodup_append]
    refine ⟨hinv.nodup, List.nodup_singleton _, ?_⟩
    intro c hc hc1
    rw [List.mem_singleton] at hc1
    subst hc1
    obtain ⟨v, hv, _⟩ := hinv.live _ hc
    exact absurd (lt_of_getElem?_some hv) (Nat.lt_irrefl _)
  · rw [hm.height, wrapInt_wrapInt_add, List.map_append, List.sum_append]
    congr 1
    simp only [List.map_cons, List.map_nil, List.sum_cons, List.sum_nil, rowHeight, hnew]
    ring
  · intro p c hpc
    rcases hsa p c hpc with h | ⟨h1, h2, h3⟩
    · exact hm.sliders p c h
    · subst h1
      exact ⟨w, hnew, h2, h3⟩
  · intro p c hpc
    rcases hca p c hpc with h | ⟨h1, h2, h3⟩
    · exact hm.combos p c h
    · subst h1
      exact ⟨w, hnew, h2, h3⟩

theorem labelAndName_ext {q : AudioProcessorParameterWithID}
    {e e1 : WahWahAudioProcessorEditor} (h : labelAndName q e = some e1) :
    HeapExt e.heap e1.heap ∧ e1.components = e.components ∧ e1.sliders = e.sliders ∧
      e1.toggles = e.toggles ∧ e1.comboBoxes = e.comboBoxes ∧
      e1.sliderAttachments = e.sliderAttachments ∧
      e1.buttonAttachments = e.buttonAttachments ∧
      e1.comboBoxAttachments = e.comboBoxAttachments ∧
      e1.width = e.width ∧ e1.height = e.height ∧ e1.timerInterval = e.timerInterval := by
  obtain ⟨last, w, _, hw, rfl⟩ := labelAndName_some h
  refine ⟨?_, rfl, rfl, rfl, rfl, rfl, rfl, rfl, rfl, rfl, rfl⟩
  exact (HeapExt.append e.heap _).trans (HeapExt.set hw rfl)

theorem ctorBody_inv {L : EditorConstants} {P : WahWahAudioProcessor} {i : Nat}
    {param : AudioProcessorParameter} {s s1 : CtorState}
    (h : ctorBody L P i param s = some s1) (hinv : ctorInv L s) : ctorInv L s1 := by
  rcases ctorBody_cases h with ⟨_, rfl⟩ | ⟨q, s0, e1, _, hty, hl, rfl⟩
  · exact hinv
  · obtain ⟨hext, hc, _, _, _, hsa, _, hca, _⟩ := labelAndName_ext hl
    have h0 : ctorInv L s0 := by
      rcases hty with ⟨_, rfl⟩ | ⟨_, rfl⟩ | ⟨_, rfl⟩ | ⟨_, rfl⟩
      · refine CtorInv.push hinv _ (by simp) ?_ ?_
        · intro p c hpc
          simp only [addSlider, List.mem_append, List.mem_singleton, Prod.mk.injEq] at hpc
          rcases hpc with hpc | ⟨rfl, rfl⟩
          · exact Or.inl hpc
          · exact Or.inr ⟨rfl, rfl, rfl⟩
        · intro p c hpc
          exact Or.inl hpc
      · refine CtorInv.push hinv _ (by simp) ?_ ?_
        · intro p c hpc
          exact Or.inl hpc
        · intro p c hpc
          exact Or.inl hpc
      · refine CtorInv.push hinv _ (by simp) ?_ ?_
        · intro p c hpc
          exact Or.inl hpc
        · intro p c hpc
          simp only [addComboBox, List.mem_append, List.mem_singleton, Prod.mk.injEq] at hpc
          rcases hpc with hpc | ⟨rfl, rfl⟩
          · exact Or.inl hpc
          · exact Or.inr ⟨rfl, rfl, rfl⟩
      · exact hinv
    have h1 := CtorInv.mono h0 hext
    unfold ctorInv
    simp only [hc, hsa, hca]
    exact h1

theorem ctorLoop_inv {L : EditorConstants} {P : WahWahAudioProcessor}
    (ps : List AudioProcessorParameter) (i : Nat) (s s1 : CtorState)
    (h : ctorLoop L P i ps s = some s1) (hinv : ctorInv L s) : ctorInv L s1 := by
  induction ps generalizing i s with
  | nil =>
    simp only [ctorLoop, Option.some.injEq] at h
    subst h
    exact hinv
  | cons p ps ih =>
    simp only [ctorLoop] at h
    cases hb : ctorBody L P i p s with
    | none => simp [hb] at h
    | some s0 =>
      simp only [hb] at h
      exact ih (i + 1) s0 h (ctorBody_inv hb hinv)

/-! ### Bookkeeping of the constructor loop -/

theorem paramsOfTypeFrom_cons (types : List String) (ty : String) (i : Nat)
    (p : AudioProcessorParameter) (ps : List AudioProcessorParameter) :
    paramsOfTypeFrom types ty i (p :: ps)
      = paramsOfTypeFrom types ty i [p] ++ paramsOfTypeFrom types ty (i + 1) ps := by
  cases p with
  | none => simp [paramsOfTypeFrom]
  | some q =>
    by_cases h : (types[i]?).getD "" = ty <;> simp [paramsOfTypeFrom, h]

theorem ctorBody_counts {L : EditorConstants} {P : WahWahAudioProcessor} {i : Nat}
    {param : AudioProcessorParameter} {s s1 : CtorState}
    (h : ctorBody L P i param s = some s1) (hc : ctorCounts L s) :
    ctorCounts L s1 ∧
    s1.e.sliderAttachments.map Prod.fst = s.e.sliderAttachments.map Prod.fst ++
      (paramsOfTypeFrom P.parameterTypes "Slider" i [param]).map (fun q => q.paramID) ∧
    s1.e.buttonAttachments.map Prod.fst = s.e.buttonAttachments.map Prod.fst ++
      (paramsOfTypeFrom P.parameterTypes "ToggleButton" i [param]).map (fun q => q.paramID) ∧
    s1.e.comboBoxAttachments.map Prod.fst = s.e.comboBoxAttachments.map Prod.fst ++
      (paramsOfTypeFrom P.parameterTypes "ComboBox" i [param]).map (fun q => q.paramID) := by
  rcases ctorBody_cases h with ⟨rfl, rfl⟩ | ⟨q, s0, e1, rfl, hty, hl, rfl⟩
  · exact ⟨hc, by simp [paramsOfTypeFrom], by simp [paramsOfTypeFrom],
      by simp [paramsOfTypeFrom]⟩
  · obtain ⟨_, hcs, hsl, htg, hcb, hsa, hba, hca, _⟩ := labelAndName_ext hl
    obtain ⟨c1, c2, c3, c4, c5⟩ := hc
    unfold ctorCounts
    simp only [hcs, hsl, htg, hcb, hsa, hba, hca]
    rcases hty with ⟨ht, rfl⟩ | ⟨ht, rfl⟩ | ⟨ht, rfl⟩ | ⟨ht, rfl⟩
    · refine ⟨⟨?_, c2, c3, ?_, ?_⟩, ?_, ?_, ?_⟩
      · simp [addSlider, c1]
      · simp [addSlider, c4]; omega
      · simp only [addSlider, List.length_append, List.length_singleton]
        rw [c5, wrapInt_wrapInt_add]
        congr 1
        push_cast; ring
      · simp [addSlider, paramsOfTypeFrom, ht]
      · simp [addSlider, paramsOfTypeFrom, ht]
      · simp [addSlider, paramsOfTypeFrom, ht]
    · refine ⟨⟨c1, ?_, c3, ?_, ?_⟩, ?_, ?_, ?_⟩
      · simp [addToggleButton, c2]
      · simp [addToggleButton, c4]; omega
      · simp only [addToggleButton, List.length_append, List.length_singleton]
        rw [c5, wrapInt_wrapInt_add]
        congr 1
        push_cast; ring
      · simp [addToggleButton, paramsOfTypeFrom, ht]
      · simp [addToggleButton, paramsOfTypeFrom, ht]
      · simp [addToggleButton, paramsOfTypeFrom, ht]
    · refine ⟨⟨c1, c2, ?_, ?_, ?_⟩, ?_, ?_, ?_⟩
      · simp [addComboBox, c3]
      · simp [addComboBox, c4]; omega
      · simp only [addComboBox, List.length_append, List.length_singleton]
        rw [c5, wrapInt_wrapInt_add]
        congr 1
        push_cast; ring
      · simp [addComboBox, paramsOfTypeFrom, ht]
      · simp [addComboBox, paramsOfTypeFrom, ht]
      · simp [addComboBox, paramsOfTypeFrom, ht]
    · have h1 : ¬ (P.parameterTypes[i]?).getD "" = "Slider" := fun h => ht (Or.inl h)
      have h2 : ¬ (P.parameterTypes[i]?).getD "" = "ToggleButton" :=
        fun h => ht (Or.inr (Or.inl h))
      have h3 : ¬ (P.parameterTypes[i]?).getD "" = "ComboBox" :=
        fun h => ht (Or.inr (Or.inr h))
      exact ⟨⟨c1, c2, c3, c4, c5⟩, by simp [paramsOfTypeFrom, h1],
        by simp [paramsOfTypeFrom, h2], by simp [paramsOfTypeFrom, h3]⟩

theorem ctorLoop_counts {L : EditorConstants} {P : WahWahAudioProcessor}
    (ps : List AudioProcessorParameter) (i : Nat) (s s1 : CtorState)
    (h : ctorLoop L P i ps s = some s1) (hc : ctorCounts L s) :
    ctorCounts L s1 ∧
    s1.e.sliderAttachments.map Prod.fst = s.e.sliderAttachments.map Prod.fst ++
      (paramsOfTypeFrom P.parameterTypes "Slider" i ps).map (fun q => q.paramID) ∧
    s1.e.buttonAttachments.map Prod.fst = s.e.buttonAttachments.map Prod.fst ++
      (paramsOfTypeFrom P.parameterTypes "ToggleButton" i ps).map (fun q => q.paramID) ∧
    s1.e.comboBoxAttachments.map Prod.fst = s.e.comboBoxAttachments.map Prod.fst ++
      (paramsOfTypeFrom P.parameterTypes "ComboBox" i ps).map (fun q => q.paramID) := by
  induction ps generalizing i s with
  | nil =>
    simp only [ctorLoop, Option.some.injEq] at h
    subst h
    exact ⟨hc, by simp [paramsOfTypeFrom], by simp [paramsOfTypeFrom],
      by simp [paramsOfTypeFrom]⟩
  | cons p ps ih =>
    simp only [ctorLoop] at h
    cases hb : ctorBody L P i p s with
    | none => simp [hb] at h
    | some s0 =>
      simp only [hb] at h
      obtain ⟨k0, a0, b0, d0⟩ := ctorBody_counts hb hc
      obtain ⟨k1, a1, b1, d1⟩ := ih (i + 1) s0 h k0
      refine ⟨k1, ?_, ?_, ?_⟩
      · rw [a1, a0, List.append_assoc, ← List.map_append, ← paramsOfTypeFrom_cons]
      · rw [b1, b0, List.append_assoc, ← List.map_append, ← paramsOfTypeFrom_cons]
      · rw [d1, d0, List.append_assoc, ← List.map_append, ← paramsOfTypeFrom_cons]

theorem ctorBody_kids {L : EditorConstants} {P : WahWahAudioProcessor} {i : Nat}
    {param : AudioProcessorParameter} {s s1 : CtorState}
    (h : ctorBody L P i param s = some s1)
    (hk : ∀ c ∈ s.e.components, c ∈ s.e.children) :
    ∀ c ∈ s1.e.components, c ∈ s1.e.children := by
  rcases ctorBody_cases h with ⟨rfl, rfl⟩ | ⟨q, s0, e1, rfl, hty, hl, rfl⟩
  · exact hk
  · obtain ⟨last, w, hlast, _, rfl⟩ := labelAndName_some hl
    have hsub : ∀ c ∈ s0.e.components, c ∈ s.e.components ∨ c = last := by
      intro c hc
      rcases hty with ⟨_, rfl⟩ | ⟨_, rfl⟩ | ⟨_, rfl⟩ | ⟨_, rfl⟩
      · simp only [addSlider, List.getLast?_concat, Option.some.injEq] at hlast hc
        simpa [hlast] using hc
      · simp only [addToggleButton, List.getLast?_concat, Option.some.injEq] at hlast hc
        simpa [hlast] using hc
      · simp only [addComboBox, List.getLast?_concat, Option.some.injEq] at hlast hc
        simpa [hlast] using hc
      · exact Or.inl hc
    have hch : s0.e.children = s.e.children := by
      rcases hty with ⟨_, rfl⟩ | ⟨_, rfl⟩ | ⟨_, rfl⟩ | ⟨_, rfl⟩ <;> rfl
    intro c hc
    simp only at hc ⊢
    rw [hch]
    rcases hsub c hc with hc | rfl
    · have := hk c hc
      split_ifs <;> simp [this]
    · split_ifs with hm
      · exact hm
      · simp

theorem ctorLoop_kids {L : EditorConstants} {P : WahWahAudioProcessor}
    (ps : List AudioProcessorParameter) (i : Nat) (s s1 : CtorState)
    (h : ctorLoop L P i ps s = some s1)
    (hk : ∀ c ∈ s.e.components, c ∈ s.e.children) :
    ∀ c ∈ s1.e.components, c ∈ s1.e.children := by
  induction ps generalizing i s with
  | nil =>
    simp only [ctorLoop, Option.some.injEq] at h
    subst h
    exact hk
  | cons p ps ih =>
    simp only [ctorLoop] at h
    cases hb : ctorBody L P i p s with
    | none => simp [hb] at h
    | some s0 =>
      simp only [hb] at h
      exact ih (i + 1) s0 h (ctorBody_kids hb hk)

/-! ### The loop of `resized` -/

theorem resizedLoop_cons (L : EditorConstants) (c : Nat) (cs : List Nat) (r : Rectangle)
    (heap : List Component) (w : Component) (hw : heap[c]? = some w) :
    resizedLoop L (c :: cs) r heap
      = resizedLoop L cs (afterRow L w.cls r) (placeRow L heap c w r) := by
  cases hk : w.cls <;> simp [resizedLoop, hw, hk, afterRow, placeRow, nominalHeight]

theorem placeRow_length (L : EditorConstants) (heap : List Component) (c : Nat)
    (w : Component) (r : Rectangle) : (placeRow L heap c w r).length = heap.length := by
  cases hk : w.cls <;> simp [placeRow, hk]

theorem placeRow_unplaced (L : EditorConstants) (heap : List Component) (c : Nat)
    (w : Component) (r : Rectangle) (hw : heap[c]? = some w) (p : Nat) :
    ((placeRow L heap c w r)[p]?).map Component.unplaced
      = (heap[p]?).map Component.unplaced := by
  cases hk : w.cls <;> simp only [placeRow, hk] <;>
    first
    | rfl
    | exact heap_set_view Component.unplaced heap c w (setBounds w _) hw rfl p

theorem placeRow_other (L : EditorConstants) (heap : List Component) (c : Nat)
    (w : Component) (r : Rectangle) (p : Nat) (hp : p ≠ c) :
    (placeRow L heap c w r)[p]? = heap[p]? := by
  have hcp : ¬ c = p := fun h => hp h.symm
  cases hk : w.cls <;> simp [placeRow, hk, List.getElem?_set, hcp]

/-- The loop of `resized` completes when every component is a live widget, and
changes nothing but bounds. -/
theorem resizedLoop_total (L : EditorConstants) (cs : List Nat) (r : Rectangle)
    (heap : List Component) (hlive : ∀ c ∈ cs, c < heap.length) :
    ∃ heap1 r1, resizedLoop L cs r heap = some (heap1, r1) ∧ heap1.length = heap.length ∧
      ∀ p : Nat, (heap1[p]?).map Component.unplaced = (heap[p]?).map Component.unplaced := by
  induction cs generalizing r heap with
  | nil => exact ⟨heap, r, rfl, rfl, fun _ => rfl⟩
  | cons c cs ih =>
    have hc : c < heap.length := hlive c (List.mem_cons_self c cs)
    have hw : heap[c]? = some heap[c] := List.getElem?_eq_getElem hc
    obtain ⟨heap1, r1, hrun, hlen, hview⟩ :=
      ih (afterRow L heap[c].cls r) (placeRow L heap c heap[c] r) (by
        intro c1 hc1
        rw [placeRow_length]
        exact hlive c1 (List.mem_cons_of_mem c hc1))
    refine ⟨heap1, r1, ?_, ?_, ?_⟩
    · rw [resizedLoop_cons L c cs r heap heap[c] hw]; exact hrun
    · rw [hlen, placeRow_length]
    · intro p
      rw [hview p, placeRow_unplaced L heap c heap[c] r hw p]

theorem HeapExt_of_unplaced {heap heap1 : List Component}
    (h : ∀ p : Nat, (heap1[p]?).map Component.unplaced = (heap[p]?).map Component.unplaced) :
    HeapExt heap heap1 := by
  intro c w hw
  have hc := h c
  rw [hw] at hc
  cases hw1 : heap1[c]? with
  | none => simp [hw1] at hc
  | some w1 =>
    rw [hw1] at hc
    simp only [Option.map_some', Option.some.injEq] at hc
    refine ⟨w1, rfl, ?_⟩
    have h1 : w1.unplaced.core = w.unplaced.core := by rw [hc]
    exact h1

/-! ### The layout computed by `resized` -/

theorem nominalHeight_nonneg (L : EditorConstants) (hs : 0 ≤ L.sliderHeight)
    (hb : 0 ≤ L.buttonHeight) (hc : 0 ≤ L.comboBoxHeight) (k : WidgetClass) :
    0 ≤ nominalHeight L k := by
  cases k <;> simp [nominalHeight, hs, hb, hc]

theorem rowHeight_nonneg (L : EditorConstants) (hs : 0 ≤ L.sliderHeight)
    (hb : 0 ≤ L.buttonHeight) (hc : 0 ≤ L.comboBoxHeight) (heap : List Component) (c : Nat) :
    0 ≤ rowHeight L heap c := by
  unfold rowHeight
  cases heap[c]? with
  | none => exact le_refl 0
  | some w => exact nominalHeight_nonneg L hs hb hc w.cls

theorem stackHeight_cons (L : EditorConstants) (heap : List Component) (c : Nat)
    (cs : List Nat) :
    stackHeight L heap (c :: cs)
      = rowHeight L heap c + L.editorPadding + stackHeight L heap cs := by
  simp [stackHeight]

theorem stackHeight_nonneg (L : EditorConstants) (hp : 0 ≤ L.editorPadding)
    (hs : 0 ≤ L.sliderHeight) (hb : 0 ≤ L.buttonHeight) (hc : 0 ≤ L.comboBoxHeight)
    (heap : List Component) (cs : List Nat) : 0 ≤ stackHeight L heap cs := by
  induction cs with
  | nil => simp [stackHeight]
  | cons c cs ih =>
    rw [stackHeight_cons]
    have := rowHeight_nonneg L hs hb hc heap c
    omega

theorem stackHeight_congr (L : EditorConstants) (heap heap1 : List Component)
    (cs : List Nat) (h : ∀ c ∈ cs, heap1[c]? = heap[c]?) :
    stackHeight L heap1 cs = stackHeight L heap cs := by
  unfold stackHeight
  congr 1
  apply List.map_congr_left
  intro c hc
  simp [rowHeight, h c hc]

theorem afterRow_fit (L : EditorConstants) (hp : 0 ≤ L.editorPadding) (k : WidgetClass)
    (hk : k ≠ .label) (r : Rectangle) (hn : 0 ≤ nominalHeight L k)
    (hy : 0 ≤ r.y) (hbot : r.y + r.h < 2147483648)
    (hfit : nominalHeight L k + L.editorPadding ≤ r.h) :
    afterRow L k r = ⟨r.x, r.y + nominalHeight L k + L.editorPadding, r.w,
      r.h - nominalHeight L k - L.editorPadding⟩ := by
  cases k with
  | label => exact absurd rfl hk
  | slider =>
    simp only [afterRow, Rectangle.removeFromTop, Rectangle.removeFromBottom,
      Rectangle.mk.injEq, wrapInt]
    refine ⟨?_, ?_, ?_, ?_⟩ <;> first | trivial | rfl | omega
  | toggleButton =>
    simp only [afterRow, Rectangle.removeFromTop, Rectangle.removeFromBottom,
      Rectangle.mk.injEq, wrapInt]
    refine ⟨?_, ?_, ?_, ?_⟩ <;> first | trivial | rfl | omega
  | comboBox =>
    simp only [afterRow, Rectangle.removeFromTop, Rectangle.removeFromBottom,
      Rectangle.mk.injEq, wrapInt]
    refine ⟨?_, ?_, ?_, ?_⟩ <;> first | trivial | rfl | omega

theorem placeRow_self (L : EditorConstants) (heap : List Component) (c : Nat)
    (w : Component) (r : Rectangle) (hw : heap[c]? = some w) (hk : w.cls ≠ .label)
    (hn : 0 ≤ nominalHeight L w.cls) (hfit : nominalHeight L w.cls ≤ r.h) :
    ((placeRow L heap c w r)[c]?).map (fun v : Component => v.bounds)
      = some (Rectangle.mk r.x r.y (max 0 r.w) (nominalHeight L w.cls)) := by
  have hlt := lt_of_getElem?_some hw
  cases hcls : w.cls with
  | label => exact absurd hcls hk
  | slider =>
    rw [hcls] at hn hfit
    simp only [placeRow, hcls, List.getElem?_set, hlt, if_true, Option.map_some', setBounds,
      Rectangle.removeFromTop, Option.some.injEq, Rectangle.mk.injEq]
    refine ⟨?_, ?_, ?_, ?_⟩ <;> first | trivial | rfl | omega
  | toggleButton =>
    rw [hcls] at hn hfit
    simp only [placeRow, hcls, List.getElem?_set, hlt, if_true, Option.map_some', setBounds,
      Rectangle.removeFromTop, Option.some.injEq, Rectangle.mk.injEq]
    refine ⟨?_, ?_, ?_, ?_⟩ <;> first | trivial | rfl | omega
  | comboBox =>
    rw [hcls] at hn hfit
    simp only [placeRow, hcls, List.getElem?_set, hlt, if_true, Option.map_some', setBounds,
      Rectangle.removeFromTop, Option.some.injEq, Rectangle.mk.injEq]
    refine ⟨?_, ?_, ?_, ?_⟩ <;> first | trivial | rfl | omega

/-- With non-negative heights and padding, distinct live components that are not
labels, and a rectangle that starts at a non-negative `y`, ends below `2^31` and
is at least as high as the whole stack, the loop of `resized` gives the `i`-th
component the row at the running top with its nominal height, and ends with the
rectangle shortened by the whole stack. -/
theorem resizedLoop_layout (L : EditorConstants) (hp : 0 ≤ L.editorPadding)
    (hs : 0 ≤ L.sliderHeight) (hb : 0 ≤ L.buttonHeight) (hc : 0 ≤ L.comboBoxHeight)
    (cs : List Nat) (r : Rectangle) (heap : List Component)
    (hlive : ∀ c ∈ cs, ∃ w, heap[c]? = some w ∧ w.cls ≠ .label) (hnd : cs.Nodup)
    (hy : 0 ≤ r.y) (hbot : r.y + r.h < 2147483648)
    (hfit : stackHeight L heap cs ≤ r.h) :
    ∃ heap1 r1, resizedLoop L cs r heap = some (heap1, r1) ∧
      r1 = ⟨r.x, r.y + stackHeight L heap cs, r.w, r.h - stackHeight L heap cs⟩ ∧
      (∀ p : Nat, p ∉ cs → heap1[p]? = heap[p]?) ∧
      (∀ (i c : Nat), cs[i]? = some c →
        (heap1[c]?).map (fun v : Component => v.bounds)
          = some (Rectangle.mk r.x (r.y + stackHeight L heap (cs.take i)) (max 0 r.w)
              (rowHeight L heap c))) := by
  induction cs generalizing r heap with
  | nil =>
    refine ⟨heap, r, rfl, ?_, fun _ _ => rfl, ?_⟩
    · simp [stackHeight]
    · intro i c hi
      simp at hi
  | cons c cs ih =>
    obtain ⟨w, hw, hk⟩ := hlive c (List.mem_cons_self c cs)
    have hrow : rowHeight L heap c = nominalHeight L w.cls := by simp [rowHeight, hw]
    have hnn : 0 ≤ nominalHeight L w.cls := nominalHeight_nonneg L hs hb hc w.cls
    have hst := stackHeight_cons L heap c cs
    have hcsnn := stackHeight_nonneg L hp hs hb hc heap cs
    have hle : nominalHeight L w.cls ≤ r.h := by omega
    have hle2 : nominalHeight L w.cls + L.editorPadding ≤ r.h := by omega
    have hnotin : c ∉ cs := (List.nodup_cons.1 hnd).1
    have hne : ∀ x ∈ cs, x ≠ c := fun x hx hxc => hnotin (hxc ▸ hx)
    have hA : ∀ x ∈ cs, (placeRow L heap c w r)[x]? = heap[x]? :=
      fun x hx => placeRow_other L heap c w r x (hne x hx)
    have hcong := stackHeight_congr L heap (placeRow L heap c w r) cs hA
    have hrA := afterRow_fit L hp w.cls hk r hnn hy hbot hle2
    obtain ⟨heap1, r1, hrun, hr1, hfr, hbd⟩ :=
      ih (afterRow L w.cls r) (placeRow L heap c w r)
        (by
          intro x hx
          rw [hA x hx]
          exact hlive x (List.mem_cons_of_mem c hx))
        (List.nodup_cons.1 hnd).2
        (by rw [hrA]; simp only; omega)
        (by rw [hrA]; simp only; omega)
        (by rw [hcong, hrA]; simp only; omega)
    refine ⟨heap1, r1, ?_, ?_, ?_, ?_⟩
    · rw [resizedLoop_cons L c cs r heap w hw]; exact hrun
    · rw [hr1, hcong, hrA, hst, hrow]
      simp only [Rectangle.mk.injEq]
      refine ⟨?_, ?_, ?_, ?_⟩ <;> first | trivial | rfl | omega
    · intro p hp1
      rw [List.mem_cons, not_or] at hp1
      rw [hfr p hp1.2, placeRow_other L heap c w r p hp1.1]
    · intro i x hi
      cases i with
      | zero =>
        simp only [List.getElem?_cons_zero, Option.some.injEq] at hi
        subst hi
        rw [hfr c hnotin, placeRow_self L heap c w r hw hk hnn hle, hrow]
        simp [stackHeight]
      | succ i =>
        simp only [List.getElem?_cons_succ] at hi
        have hx : x ∈ cs := List.mem_iff_getElem?.2 ⟨i, hi⟩
        have htake : ∀ y ∈ cs.take i, (placeRow L heap c w r)[y]? = heap[y]? :=
          fun y hy => hA y (List.mem_of_mem_take hy)
        rw [hbd i x hi, stackHeight_congr L heap (placeRow L heap c w r) (cs.take i) htake,
          hrA, List.take_succ_cons, stackHeight_cons, hrow]
        have hrx : rowHeight L (placeRow L heap c w r) x = rowHeight L heap x := by
          simp [rowHeight, hA x hx]
        rw [hrx]
        simp only [Option.some.injEq, Rectangle.mk.injEq]
        refine ⟨?_, ?_, ?_, ?_⟩ <;> first | trivial | rfl | omega

/-! ### Shape of the runs of `resized`, `setSize` and the constructor -/

theorem resized_some {L : EditorConstants} {e e1 : WahWahAudioProcessorEditor}
    {tr : List Call} (h : resized L e = some (e1, tr)) :
    tr = [] ∧ ∃ heap r, resizedLoop L e.components (layoutArea L e) e.heap = some (heap, r) ∧
      e1 = { e with heap := heap } := by
  unfold resized at h
  cases hl : resizedLoop L e.components (layoutArea L e) e.heap with
  | none => simp [hl] at h
  | some hr =>
    obtain ⟨heap, r⟩ := hr
    simp only [hl, Option.some.injEq, Prod.mk.injEq] at h
    exact ⟨h.2.symm, heap, r, rfl, h.1.symm⟩

theorem setSize_some {L : EditorConstants} {e e1 : WahWahAudioProcessorEditor} {w h : Int}
    {tr : List Call} (hs : setSize L e w h = some (e1, tr)) :
    tr = [] ∧ (e1 = e ∧ e.width = max 0 w ∧ e.height = max 0 h ∨
      resized L { e with width := max 0 w, height := max 0 h } = some (e1, [])) := by
  unfold setSize at hs
  split_ifs at hs with hc
  · simp only [Option.some.injEq, Prod.mk.injEq] at hs
    exact ⟨hs.2.symm, Or.inl ⟨hs.1.symm, hc.1, hc.2⟩⟩
  · have ht := (resized_some hs).1
    subst ht
    exact ⟨rfl, Or.inr hs⟩

/-- The initial locals of the constructor. -/
theorem ctor_some {L : EditorConstants} {P : WahWahAudioProcessor} {ok : Bool}
    {e : WahWahAudioProcessorEditor} {tr : List Call} (h : ctor L P ok = some (e, tr)) :
    ∃ s e0,
      ctorLoop L P 0 P.getParameters
        { e := {}, comboBoxCounter := 0, editorHeight := wrapInt (2 * L.editorMargin) } = some s ∧
      setSize L s.e L.editorWidth
        (wrapInt (s.editorHeight + wrapInt (s.e.components.length * L.editorPadding))) = some (e0, []) ∧
      e = { e0 with timerInterval := some 50 } ∧
      tr = [Call.setSize L.editorWidth
              (wrapInt (s.editorHeight + wrapInt (s.e.components.length * L.editorPadding))),
            Call.startTimer 50, Call.connect "127.0.0.1" 9001,
            if ok then Call.dbg "Connected to UDP port 9001."
            else Call.dbg "Error: could not connect to UDP port 9001."] := by
  unfold ctor at h
  cases hl : ctorLoop L P 0 P.getParameters
      { e := {}, comboBoxCounter := 0, editorHeight := wrapInt (2 * L.editorMargin) } with
  | none => simp [hl] at h
  | some s =>
    cases hz : setSize L s.e L.editorWidth
        (wrapInt (s.editorHeight + wrapInt (s.e.components.length * L.editorPadding))) with
    | none => simp [hl, hz] at h
    | some r =>
      obtain ⟨e0, calls⟩ := r
      have hc := (setSize_some hz).1
      subst hc
      simp only [hl, hz, Option.some.injEq, Prod.mk.injEq] at h
      exact ⟨s, e0, rfl, hz, h.1.symm, by rw [← h.2]; simp⟩

theorem runCallback_some {e e1 : WahWahAudioProcessorEditor} {cb : Callback} {ok : Bool}
    {tr : List Call} (h : runCallback e cb ok = some (e1, tr)) :
    e1 = e ∧ ∃ id v, tr = [Call.dbgValue id v, Call.send ("/param/" ++ id) v] ++
      (if ok then [] else [Call.dbg "Error: could not send OSC message."]) ∧
      ((∃ c w, cb = .sliderOnValueChange c id ∧ e.heap[c]? = some w ∧ w.cls = .slider ∧
          v = .ofDouble w.value) ∨
       (∃ c w, cb = .comboBoxOnChange c id ∧ e.heap[c]? = some w ∧ w.cls = .comboBox ∧
          v = .ofInt w.selectedId)) := by
  cases cb with
  | sliderOnValueChange c id =>
    unfold runCallback at h
    cases hw : e.heap[c]? with
    | none => simp [hw] at h
    | some w =>
      by_cases hs : w.cls = .slider
      · simp only [hw, hs, if_true, Option.some.injEq, Prod.mk.injEq] at h
        exact ⟨h.1.symm, id, .ofDouble w.value, h.2.symm, Or.inl ⟨c, w, rfl, hw, hs, rfl⟩⟩
      · simp [hw, hs] at h
  | comboBoxOnChange c id =>
    unfold runCallback at h
    cases hw : e.heap[c]? with
    | none => simp [hw] at h
    | some w =>
      by_cases hs : w.cls = .comboBox
      · simp only [hw, hs, if_true, Option.some.injEq, Prod.mk.injEq] at h
        exact ⟨h.1.symm, id, .ofInt w.selectedId, h.2.symm, Or.inr ⟨c, w, rfl, hw, hs, rfl⟩⟩
      · simp [hw, hs] at h

theorem runCallback_fst (e : WahWahAudioProcessorEditor) (cb : Callback) (ok : Bool) :
    (runCallback e cb ok).map Prod.fst = (runCallback e cb true).map Prod.fst := by
  cases cb with
  | sliderOnValueChange c id =>
    simp only [runCallback]
    cases hw : e.heap[c]? with
    | none => rfl
    | some w => by_cases hs : w.cls = .slider <;> simp [hs]
  | comboBoxOnChange c id =>
    simp only [runCallback]
    cases hw : e.heap[c]? with
    | none => rfl
    | some w => by_cases hs : w.cls = .comboBox <;> simp [hs]

theorem valueChanged_fst (e : WahWahAudioProcessorEditor) (c : Nat) (ok : Bool) :
    (valueChanged e c ok).map Prod.fst = (valueChanged e c true).map Prod.fst := by
  unfold valueChanged
  cases hw : e.heap[c]? with
  | none => rfl
  | some w =>
    cases hcb : w.onChange with
    | none => simp [hcb]
    | some cb => simpa [hcb] using runCallback_fst e cb ok

theorem valueChanged_some {e e1 : WahWahAudioProcessorEditor} {c : Nat} {ok : Bool}
    {tr : List Call} (h : valueChanged e c ok = some (e1, tr)) :
    ∃ w, e.heap[c]? = some w ∧
      (w.onChange = none ∧ e1 = e ∧ tr = [] ∨
       ∃ cb, w.onChange = some cb ∧ runCallback e cb ok = some (e1, tr)) := by
  unfold valueChanged at h
  cases hw : e.heap[c]? with
  | none => simp [hw] at h
  | some w =>
    refine ⟨w, rfl, ?_⟩
    cases hcb : w.onChange with
    | none =>
      simp only [hw, hcb, Option.some.injEq, Prod.mk.injEq] at h
      exact Or.inl ⟨rfl, h.1.symm, h.2.symm⟩
    | some cb =>
      simp only [hw, hcb] at h
      exact Or.inr ⟨cb, rfl, h⟩

theorem updateUIcomponents_trace {P : WahWahAudioProcessor}
    {e e1 : WahWahAudioProcessorEditor} {tr : List Call}
    (h : updateUIcomponents P e = some (e1, tr)) : tr = [] := by
  unfold updateUIcomponents at h
  split_ifs at h <;>
  · simp only [Option.bind_eq_some] at h
    obtain ⟨s1, _, s2, _, s3, _, s4, _, s5, _, h6⟩ := h
    injection h6 with h6
    exact (congrArg Prod.snd h6).symm

/-! ### The loop on parameters of known type -/

theorem labelAndName_of_last (q : AudioProcessorParameterWithID)
    (e : WahWahAudioProcessorEditor) (last : Nat) (w : Component)
    (hl : e.components.getLast? = some last) (hw : e.heap[last]? = some w) :
    ∃ e1, labelAndName q e = some e1 ∧
      e1.heap = (e.heap ++ [newLabel q (some last)]).set last
        { w with name := q.name, componentID := q.paramID, visible := true } ∧
      e1.components = e.components := by
  have hw1 : (e.heap ++ [newLabel q (some last)])[last]? = some w := by
    rw [List.getElem?_append_left (lt_of_getElem?_some hw)]; exact hw
  cases hres : labelAndName q e with
  | none => simp [labelAndName, hl, hw1] at hres
  | some e1 =>
    simp only [labelAndName, hl, hw1, Option.some.injEq] at hres
    subst hres
    exact ⟨_, rfl, rfl, rfl⟩

/-- Allocation of a widget followed by `labelAndName`, on the heap. -/
theorem heap_push_name (heap : List Component) (w l w1 : Component) :
    ((heap ++ [w] ++ [l]).set heap.length w1) = heap ++ [w1] ++ [l] := by
  simp [List.set_append]

/-- An iteration for a parameter with an ID and a known type completes: it
appends one fresh widget to `components`, gives it the parameter's ID and name,
and leaves the widgets allocated before as they are. -/
theorem ctorBody_typed (L : EditorConstants) (P : WahWahAudioProcessor) (i : Nat)
    (q : AudioProcessorParameterWithID) (s : CtorState)
    (hk : knownType ((P.parameterTypes[i]?).getD "")) :
    ∃ s1, ctorBody L P i (some q) s = some s1 ∧
      s1.e.components = s.e.components ++ [s.e.heap.length] ∧
      idNameAt s1.e s.e.heap.length = some (q.paramID, q.name) ∧
      (∀ c : Nat, c < s.e.heap.length → s1.e.heap[c]? = s.e.heap[c]?) := by
  have hold : ∀ (heap : List Component) (w l : Component) (c : Nat), c < heap.length →
      (heap ++ [w] ++ [l])[c]? = heap[c]? := by
    intro heap w l c hc
    rw [List.append_assoc, List.getElem?_append_left hc]
  have hnew : ∀ (heap : List Component) (w l : Component),
      (heap ++ [w] ++ [l])[heap.length]? = some w := by
    intro heap w l
    rw [List.append_assoc, List.getElem?_append_right (Nat.le_refl _)]
    simp
  rcases hk with hk | hk | hk
  · obtain ⟨e1, hlab, hheap, hcomp⟩ :=
      labelAndName_of_last q (addSlider L q s).e s.e.heap.length _
        (by simp [addSlider]) (by simp only [addSlider]; exact List.getElem?_concat_length _ _)
    simp only [addSlider, heap_push_name] at hheap hcomp
    refine ⟨{ addSlider L q s with e := e1 }, ?_, hcomp, ?_, ?_⟩
    · simp only [ctorBody, hk, if_true, hlab]
    · simp only [idNameAt, hheap, hnew]; rfl
    · intro c hc
      simp only [hheap]
      exact hold _ _ _ c hc
  · have h1 : ¬ ("ToggleButton" = "Slider") := by decide
    obtain ⟨e1, hlab, hheap, hcomp⟩ :=
      labelAndName_of_last q (addToggleButton L q s).e s.e.heap.length _
        (by simp [addToggleButton])
        (by simp only [addToggleButton]; exact List.getElem?_concat_length _ _)
    simp only [addToggleButton, heap_push_name] at hheap hcomp
    refine ⟨{ addToggleButton L q s with e := e1 }, ?_, hcomp, ?_, ?_⟩
    · simp only [ctorBody, hk, h1, if_true, if_false, hlab]
    · simp only [idNameAt, hheap, hnew]; rfl
    · intro c hc
      simp only [hheap]
      exact hold _ _ _ c hc
  · have h1 : ¬ ("ComboBox" = "Slider") := by decide
    have h2 : ¬ ("ComboBox" = "ToggleButton") := by decide
    obtain ⟨e1, hlab, hheap, hcomp⟩ :=
      labelAndName_of_last q (addComboBox L P q s).e s.e.heap.length _
        (by simp [addComboBox])
        (by simp only [addComboBox]; exact List.getElem?_concat_length _ _)
    simp only [addComboBox, heap_push_name] at hheap hcomp
    refine ⟨{ addComboBox L P q s with e := e1 }, ?_, hcomp, ?_, ?_⟩
    · simp only [ctorBody, hk, h1, h2, if_true, if_false, hlab]
    · simp only [idNameAt, hheap, hnew]; rfl
    · intro c hc
      simp only [hheap]
      exact hold _ _ _ c hc

/-- When every parameter with an ID has a known type, the loop completes, and the
IDs and names of the components it appends are those of the parameters with an
ID, in order. -/
theorem ctorLoop_typed (L : EditorConstants) (P : WahWahAudioProcessor)
    (ps : List AudioProcessorParameter) (i : Nat) (s : CtorState)
    (htyped : ∀ (k : Nat) (q : AudioProcessorParameterWithID), ps[k]? = some (some q) →
      knownType ((P.parameterTypes[i + k]?).getD ""))
    (hinv : ctorInv L s) :
    ∃ s1, ctorLoop L P i ps s = some s1 ∧
      s1.e.components.map (idNameAt s1.e)
        = s.e.components.map (idNameAt s.e)
          ++ (withIDs ps).map (fun q => some (q.paramID, q.name)) := by
  induction ps generalizing i s with
  | nil => exact ⟨s, rfl, by simp [withIDs]⟩
  | cons p ps ih =>
    have hshift : ∀ (k : Nat) (q : AudioProcessorParameterWithID),
        ps[k]? = some (some q) → knownType ((P.parameterTypes[i + 1 + k]?).getD "") := by
      intro k q hq
      have := htyped (k + 1) q (by simpa using hq)
      rw [show i + 1 + k = i + (k + 1) by omega]
      exact this
    cases p with
    | none =>
      obtain ⟨s1, hrun, hid⟩ := ih (i + 1) s hshift hinv
      exact ⟨s1, by simpa [ctorLoop, ctorBody] using hrun, by simpa [withIDs] using hid⟩
    | some q =>
      obtain ⟨s0, hb, hcs, hnew, hold⟩ :=
        ctorBody_typed L P i q s (by simpa using htyped 0 q (by simp))
      obtain ⟨s1, hrun, hid⟩ := ih (i + 1) s0 hshift (ctorBody_inv hb hinv)
      refine ⟨s1, by simp [ctorLoop, hb, hrun], ?_⟩
      have hsame : s.e.components.map (idNameAt s0.e) = s.e.components.map (idNameAt s.e) := by
        apply List.map_congr_left
        intro c hc
        obtain ⟨w, hw, _⟩ := hinv.live c hc
        simp [idNameAt, hold c (lt_of_getElem?_some hw)]
      rw [hid, hcs, List.map_append, hsame]
      simp [withIDs, hnew]

/-! ### What a completed construction leaves -/

/-- When the loop of `resized` completes, nothing but bounds has changed. -/
theorem resizedLoop_frame (L : EditorConstants) (cs : List Nat) (r : Rectangle)
    (heap heap1 : List Component) (r1 : Rectangle)
    (h : resizedLoop L cs r heap = some (heap1, r1)) :
    ∀ p : Nat, (heap1[p]?).map Component.unplaced = (heap[p]?).map Component.unplaced := by
  induction cs generalizing r heap with
  | nil =>
    simp only [resizedLoop, Option.some.injEq, Prod.mk.injEq] at h
    intro p
    rw [h.1]
  | cons c cs ih =>
    cases hw : heap[c]? with
    | none => simp [resizedLoop, hw] at h
    | some w =>
      rw [resizedLoop_cons L c cs r heap w hw] at h
      intro p
      rw [ih _ _ h p, placeRow_unplaced L heap c w r hw p]

theorem setSize_frame {L : EditorConstants} {e e1 : WahWahAudioProcessorEditor} {w h : Int}
    (hs : setSize L e w h = some (e1, [])) :
    e1 = { e with heap := e1.heap, width := max 0 w, height := max 0 h } ∧
    ∀ p : Nat, (e1.heap[p]?).map Component.unplaced = (e.heap[p]?).map Component.unplaced := by
  rcases (setSize_some hs).2 with ⟨rfl, hw, hh⟩ | hr
  · refine ⟨?_, fun _ => rfl⟩
    rw [← hw, ← hh]
  · obtain ⟨_, heap, r, hl, rfl⟩ := resized_some hr
    exact ⟨rfl, resizedLoop_frame L _ _ _ _ _ hl⟩

/-- The locals of the constructor before the loop satisfy the loop invariants. -/
theorem ctor_init (L : EditorConstants) :
    ctorInv L { e := {}, comboBoxCounter := 0, editorHeight := wrapInt (2 * L.editorMargin) } ∧
    ctorCounts L { e := {}, comboBoxCounter := 0, editorHeight := wrapInt (2 * L.editorMargin) } := by
  refine ⟨⟨?_, ?_, ?_, ?_, ?_⟩, ?_⟩
  · intro c hc; simp at hc
  · exact List.nodup_nil
  · simp
  · intro p c hc; simp at hc
  · intro p c hc; simp at hc
  · simp [ctorCounts]

/-- A completed construction: the state `s` the loop ended in satisfies the loop
invariants and the editor is `s.e` with new bounds, the size and the timer. -/
theorem ctor_spec {L : EditorConstants} {P : WahWahAudioProcessor} {ok : Bool}
    {e : WahWahAudioProcessorEditor} {tr : List Call} (h : ctor L P ok = some (e, tr)) :
    ∃ s,
      ctorLoop L P 0 P.getParameters
        { e := {}, comboBoxCounter := 0, editorHeight := wrapInt (2 * L.editorMargin) } = some s ∧
      ctorInv L s ∧ ctorCounts L s ∧ (∀ c ∈ s.e.components, c ∈ s.e.children) ∧
      e = { s.e with
        heap := e.heap,
        width := max 0 L.editorWidth,
        height := max 0 (wrapInt (s.editorHeight + wrapInt (s.e.components.length * L.editorPadding))),
        timerInterval := some 50 } ∧
      (∀ p : Nat, (e.heap[p]?).map Component.unplaced
        = (s.e.heap[p]?).map Component.unplaced) ∧
      tr = [Call.setSize L.editorWidth
              (wrapInt (s.editorHeight + wrapInt (s.e.components.length * L.editorPadding))),
            Call.startTimer 50, Call.connect "127.0.0.1" 9001,
            if ok then Call.dbg "Connected to UDP port 9001."
            else Call.dbg "Error: could not connect to UDP port 9001."] := by
  obtain ⟨s, e0, hl, hz, he, ht⟩ := ctor_some h
  obtain ⟨hfr, hview⟩ := setSize_frame hz
  refine ⟨s, hl, ctorLoop_inv _ _ _ _ hl (ctor_init L).1,
    (ctorLoop_counts _ _ _ _ hl (ctor_init L).2).1,
    ctorLoop_kids _ _ _ _ hl (by intro c hc; simp at hc), ?_, ?_, ht⟩
  · rw [he]
    conv_lhs => rw [hfr]
  · intro p
    rw [he]
    exact hview p

/-- The heap invariant holds of the editor a completed construction leaves. -/
theorem ctor_inv {L : EditorConstants} {P : WahWahAudioProcessor} {ok : Bool}
    {e : WahWahAudioProcessorEditor} {tr : List Call} (h : ctor L P ok = some (e, tr)) :
    ∃ H : Int, CtorInv L e.heap e.components H e.sliderAttachments e.comboBoxAttachments ∧
      e.width = max 0 L.editorWidth ∧
      e.height = max 0 (wrapInt (H + wrapInt (e.components.length * L.editorPadding))) ∧
      (∀ c ∈ e.components, c ∈ e.children) := by
  obtain ⟨s, _, hinv, _, hk, he, hview, _⟩ := ctor_spec h
  have hext : HeapExt s.e.heap e.heap := HeapExt_of_unplaced hview
  have hm := CtorInv.mono hinv hext
  refine ⟨s.editorHeight, ?_, ?_, ?_, ?_⟩
  · rw [he]; exact hm
  · rw [he]
  · rw [he]
  · rw [he]; exact hk

theorem idNameAt_of_unplaced {e e1 : WahWahAudioProcessorEditor}
    (h : ∀ p : Nat, (e1.heap[p]?).map Component.unplaced = (e.heap[p]?).map Component.unplaced)
    (c : Nat) : idNameAt e1 c = idNameAt e c := by
  have hc := h c
  unfold idNameAt
  cases h1 : e1.heap[c]? <;> cases h2 : e.heap[c]? <;> simp [h1, h2] at hc ⊢
  have ha : (Component.unplaced _).componentID = (Component.unplaced _).componentID :=
    congrArg Component.componentID hc
  have hb : (Component.unplaced _).name = (Component.unplaced _).name :=
    congrArg Component.name hc
  exact ⟨ha, hb⟩

/-- The constructor completes once its loop does. -/
theorem ctor_of_loop (L : EditorConstants) (P : WahWahAudioProcessor) (ok : Bool)
    (s : CtorState)
    (hl : ctorLoop L P 0 P.getParameters
      { e := {}, comboBoxCounter := 0, editorHeight := wrapInt (2 * L.editorMargin) } = some s) :
    ∃ e tr, ctor L P ok = some (e, tr) := by
  have hinv := ctorLoop_inv _ _ _ _ hl (ctor_init L).1
  have hlive : ∀ c ∈ s.e.components, c < s.e.heap.length := by
    intro c hc
    obtain ⟨w, hw, _⟩ := hinv.live c hc
    exact lt_of_getElem?_some hw
  have hsz : (setSize L s.e L.editorWidth
      (wrapInt (s.editorHeight + wrapInt (s.e.components.length * L.editorPadding)))).isSome := by
    unfold setSize
    split_ifs
    · rfl
    · obtain ⟨heap1, r1, hrun, _, _⟩ :=
        resizedLoop_total L s.e.components
          (layoutArea L { s.e with
            width := max 0 L.editorWidth,
            height := max 0 (wrapInt (s.editorHeight + wrapInt (s.e.components.length * L.editorPadding))) })
          s.e.heap hlive
      simp only [resized, hrun]
      rfl
  have hsome : (ctor L P ok).isSome := by
    cases hz : setSize L s.e L.editorWidth
        (wrapInt (s.editorHeight + wrapInt (s.e.components.length * L.editorPadding))) with
    | none => rw [hz] at hsz; cases hsz
    | some r => simp only [ctor, hl, hz]; rfl
  obtain ⟨⟨e, tr⟩, h⟩ := Option.isSome_iff_exists.1 hsome
  exact ⟨e, tr, h⟩

/-- When every parameter with an ID has a known type, the constructor completes
and the components carry, in order, the IDs and names of those parameters. -/
theorem ctor_typed (L : EditorConstants) (P : WahWahAudioProcessor) (ok : Bool)
    (htyped : ∀ (i : Nat) (q : AudioProcessorParameterWithID),
      P.getParameters[i]? = some (some q) → knownType ((P.parameterTypes[i]?).getD "")) :
    ∃ e tr, ctor L P ok = some (e, tr) ∧
      e.components.map (idNameAt e)
        = (withIDs P.getParameters).map (fun q => some (q.paramID, q.name)) := by
  obtain ⟨s, hl, hid⟩ :=
    ctorLoop_typed L P P.getParameters 0
      { e := {}, comboBoxCounter := 0, editorHeight := wrapInt (2 * L.editorMargin) }
      (by intro k q hq; simpa using htyped k q hq) (ctor_init L).1
  obtain ⟨e, tr, h⟩ := ctor_of_loop L P ok s hl
  refine ⟨e, tr, h, ?_⟩
  obtain ⟨s1, hl1, _, _, _, he, hview, _⟩ := ctor_spec h
  rw [hl] at hl1
  injection hl1 with hl1
  subst hl1
  have hcs : e.components = s.e.components := by rw [he]
  rw [hcs]
  simp only [List.map_nil, List.nil_append] at hid
  rw [← hid]
  apply List.map_congr_left
  intro c _
  exact idNameAt_of_unplaced hview c

theorem findChildWithID_of_child {e : WahWahAudioProcessorEditor} {c : Nat}
    {targetID nm : String} (hc : c ∈ e.children) (hid : idNameAt e c = some (targetID, nm)) :
    ∃ c1, findChildWithID e targetID = some c1 := by
  have hsome : (findChildWithID e targetID).isSome := by
    unfold findChildWithID
    rw [List.find?_isSome]
    refine ⟨c, hc, ?_⟩
    unfold idNameAt at hid
    cases hw : e.heap[c]? with
    | none => simp [hw] at hid
    | some w =>
      simp only [hw, Option.map_some', Option.some.injEq, Prod.mk.injEq] at hid
      simp [hid.1]
  exact Option.isSome_iff_exists.1 hsome

/-- A component whose ID and name are those of the parameter `q`, for every
parameter `q` with an ID, when the components match the parameters. -/
theorem component_of_parameter {e : WahWahAudioProcessorEditor}
    {ps : List AudioProcessorParameter}
    (hid : e.components.map (idNameAt e) = (withIDs ps).map (fun q => some (q.paramID, q.name)))
    {q : AudioProcessorParameterWithID} (hq : some q ∈ ps) :
    ∃ c ∈ e.components, idNameAt e c = some (q.paramID, q.name) := by
  have hmem : some (q.paramID, q.name) ∈ e.components.map (idNameAt e) := by
    rw [hid]
    exact List.mem_map.2 ⟨q, by simpa [withIDs] using hq, rfl⟩
  obtain ⟨c, hc, hcq⟩ := List.mem_map.1 hmem
  exact ⟨c, hc, hcq⟩

/-! ### When the constructor completes -/

/-- Once `components` is not empty, every further iteration completes. -/
theorem ctorLoop_of_nonempty (L : EditorConstants) (P : WahWahAudioProcessor)
    (ps : List AudioProcessorParameter) (i : Nat) (s : CtorState)
    (hne : s.e.components ≠ []) (hinv : ctorInv L s) :
    (ctorLoop L P i ps s).isSome := by
  induction ps generalizing i s with
  | nil => rfl
  | cons p ps ih =>
    cases p with
    | none => simpa [ctorLoop, ctorBody] using ih (i + 1) s hne hinv
    | some q =>
      by_cases hk : knownType ((P.parameterTypes[i]?).getD "")
      · obtain ⟨s0, hb, hcs, _, _⟩ := ctorBody_typed L P i q s hk
        have := ih (i + 1) s0 (by rw [hcs]; simp) (ctorBody_inv hb hinv)
        simpa [ctorLoop, hb] using this
      · have h1 : ¬ (P.parameterTypes[i]?).getD "" = "Slider" := fun h => hk (Or.inl h)
        have h2 : ¬ (P.parameterTypes[i]?).getD "" = "ToggleButton" :=
          fun h => hk (Or.inr (Or.inl h))
        have h3 : ¬ (P.parameterTypes[i]?).getD "" = "ComboBox" :=
          fun h => hk (Or.inr (Or.inr h))
        obtain ⟨last, hlast⟩ : ∃ last, s.e.components.getLast? = some last := by
          cases hl : s.e.components.getLast? with
          | none => exact absurd (List.getLast?_eq_none_iff.1 hl) hne
          | some last => exact ⟨last, rfl⟩
        obtain ⟨w, hw, _⟩ := hinv.live last (List.mem_of_getLast?_eq_some hlast)
        obtain ⟨e1, hlab, _, hcomp⟩ := labelAndName_of_last q s.e last w hlast hw
        have hb : ctorBody L P i (some q) s = some { s with e := e1 } := by
          simp only [ctorBody, if_neg h1, if_neg h2, if_neg h3, hlab]
        have := ih (i + 1) { s with e := e1 } (by simpa [hcomp] using hne)
          (ctorBody_inv hb hinv)
        simpa [ctorLoop, hb] using this

/-- From an empty `components` array the loop completes exactly when the first
parameter with an ID, if any, has a known type. -/
theorem ctorLoop_isSome_iff (L : EditorConstants) (P : WahWahAudioProcessor)
    (ps : List AudioProcessorParameter) (i : Nat) (s : CtorState)
    (hempty : s.e.components = []) (hinv : ctorInv L s) :
    (ctorLoop L P i ps s).isSome ↔ firstWithIDTyped P.parameterTypes i ps := by
  induction ps generalizing i with
  | nil => simp [ctorLoop, firstWithIDTyped]
  | cons p ps ih =>
    cases p with
    | none => simpa [ctorLoop, ctorBody, firstWithIDTyped] using ih (i + 1)
    | some q =>
      by_cases hk : knownType ((P.parameterTypes[i]?).getD "")
      · obtain ⟨s0, hb, hcs, _, _⟩ := ctorBody_typed L P i q s hk
        have := ctorLoop_of_nonempty L P ps (i + 1) s0 (by rw [hcs]; simp)
          (ctorBody_inv hb hinv)
        simp [ctorLoop, hb, firstWithIDTyped, hk, this]
      · have h1 : ¬ (P.parameterTypes[i]?).getD "" = "Slider" := fun h => hk (Or.inl h)
        have h2 : ¬ (P.parameterTypes[i]?).getD "" = "ToggleButton" :=
          fun h => hk (Or.inr (Or.inl h))
        have h3 : ¬ (P.parameterTypes[i]?).getD "" = "ComboBox" :=
          fun h => hk (Or.inr (Or.inr h))
        have hb : ctorBody L P i (some q) s = none := by
          simp only [ctorBody, if_neg h1, if_neg h2, if_neg h3, labelAndName, hempty,
            List.getLast?_nil]
        simp [ctorLoop, hb, firstWithIDTyped, hk]

/-- The constructor completes exactly when the first parameter with an ID, if
any, has one of the three known type strings: otherwise line 119 dereferences
the null `components.getLast()`. -/
theorem ctor_isSome_iff (L : EditorConstants) (P : WahWahAudioProcessor) (ok : Bool) :
    (ctor L P ok).isSome ↔ firstWithIDTyped P.parameterTypes 0 P.getParameters := by
  rw [← ctorLoop_isSome_iff L P P.getParameters 0
    { e := {}, comboBoxCounter := 0, editorHeight := wrapInt (2 * L.editorMargin) } rfl (ctor_init L).1]
  constructor
  · intro h
    obtain ⟨⟨e, tr⟩, he⟩ := Option.isSome_iff_exists.1 h
    obtain ⟨s, _, hl, _⟩ := ctor_some he
    rw [hl]; rfl
  · intro h
    obtain ⟨s, hs⟩ := Option.isSome_iff_exists.1 h
    obtain ⟨e, tr, he⟩ := ctor_of_loop L P ok s hs
    rw [he]; rfl

/-! ### The stack of rows -/

theorem stackHeight_eq (L : EditorConstants) (heap : List Component) (cs : List Nat) :
    stackHeight L heap cs
      = (cs.map (rowHeight L heap)).sum + cs.length * L.editorPadding := by
  induction cs with
  | nil => simp [stackHeight]
  | cons c cs ih =>
    rw [stackHeight_cons, ih]
    simp only [List.map_cons, List.sum_cons, List.length_cons]
    push_cast
    ring

theorem stackHeight_take_succ (L : EditorConstants) (heap : List Component)
    (cs : List Nat) (i c : Nat) (hi : cs[i]? = some c) :
    stackHeight L heap (cs.take (i + 1))
      = stackHeight L heap (cs.take i) + (rowHeight L heap c + L.editorPadding) := by
  induction cs generalizing i with
  | nil => simp at hi
  | cons x cs ih =>
    cases i with
    | zero =>
      simp only [List.getElem?_cons_zero, Option.some.injEq] at hi
      subst hi
      simp [stackHeight]
    | succ i =>
      simp only [List.getElem?_cons_succ] at hi
      rw [List.take_succ_cons, stackHeight_cons, ih i hi, List.take_succ_cons,
        stackHeight_cons]
      ring

theorem stackHeight_take_mono (L : EditorConstants) (hp : 0 ≤ L.editorPadding)
    (hs : 0 ≤ L.sliderHeight) (hb : 0 ≤ L.buttonHeight) (hc : 0 ≤ L.comboBoxHeight)
    (heap : List Component) (cs : List Nat) (a b : Nat) (hab : a ≤ b) :
    stackHeight L heap (cs.take a) ≤ stackHeight L heap (cs.take b) := by
  induction cs generalizing a b with
  | nil => simp
  | cons x cs ih =>
    cases a with
    | zero =>
      simp only [List.take_zero]
      have := stackHeight_nonneg L hp hs hb hc heap ((x :: cs).take b)
      simpa [stackHeight] using this
    | succ a =>
      cases b with
      | zero => omega
      | succ b =>
        rw [List.take_succ_cons, List.take_succ_cons, stackHeight_cons, stackHeight_cons]
        have := ih a b (by omega)
        omega

theorem stackHeight_take_le (L : EditorConstants) (hp : 0 ≤ L.editorPadding)
    (hs : 0 ≤ L.sliderHeight) (hb : 0 ≤ L.buttonHeight) (hc : 0 ≤ L.comboBoxHeight)
    (heap : List Component) (cs : List Nat) (a : Nat) :
    stackHeight L heap (cs.take a) ≤ stackHeight L heap cs := by
  have := stackHeight_take_mono L hp hs hb hc heap cs a (max a cs.length) (le_max_left _ _)
  rwa [List.take_of_length_le (le_max_right _ _)] at this

/-- The layout `resized` computes for the editor a completed construction leaves,
under non-negative layout constants, an editor at least as wide as two margins
and the label column, and an editor width and height that fit an `int`. -/
theorem ctor_layout (L : EditorConstants) (P : WahWahAudioProcessor) (ok : Bool)
    (e : WahWahAudioProcessorEditor) (tr : List Call)
    (hm : 0 ≤ L.editorMargin) (hp : 0 ≤ L.editorPadding) (hw : 0 ≤ L.editorWidth)
    (hlw : 0 ≤ L.labelWidth) (hs : 0 ≤ L.sliderHeight) (hb : 0 ≤ L.buttonHeight)
    (hc : 0 ≤ L.comboBoxHeight)
    (hwide : 2 * L.editorMargin + L.labelWidth ≤ L.editorWidth)
    (hfitW : fitsInt L.editorWidth)
    (hfitH : fitsInt (2 * L.editorMargin + stackHeight L e.heap e.components))
    (h : ctor L P ok = some (e, tr)) :
    ∃ heap1 r1,
      resizedLoop L e.components (layoutArea L e) e.heap = some (heap1, r1) ∧
      resized L e = some ({ e with heap := heap1 }, []) ∧ r1.h = 0 ∧
      e.width = L.editorWidth ∧
      e.height = 2 * L.editorMargin + stackHeight L e.heap e.components ∧
      (∀ (i c : Nat), e.components[i]? = some c →
        ∃ w, e.heap[c]? = some w ∧ w.cls ≠ .label ∧
          (heap1[c]?).map (fun v : Component => v.bounds)
            = some (Rectangle.mk (L.editorMargin + L.labelWidth)
                (rowTop L e.heap e.components i)
                (max 0 (L.editorWidth - 2 * L.editorMargin - L.labelWidth))
                (nominalHeight L w.cls))) := by
  obtain ⟨H, hinv, hwd, hht, _⟩ := ctor_inv h
  have hst := stackHeight_eq L e.heap e.components
  have hnn := stackHeight_nonneg L hp hs hb hc e.heap e.components
  obtain ⟨_, hW⟩ := hfitW
  have hH : wrapInt (H + wrapInt (e.components.length * L.editorPadding))
      = 2 * L.editorMargin + stackHeight L e.heap e.components := by
    rw [hinv.height, wrapInt_add_wrapInt, wrapInt_wrapInt_add, ← wrapInt_of_fits hfitH]
    congr 1
    rw [hst]; ring
  rw [hH] at hht
  obtain ⟨_, hHlt⟩ := hfitH
  have hwd1 : e.width = L.editorWidth := by rw [hwd]; omega
  have hht1 : e.height = 2 * L.editorMargin + stackHeight L e.heap e.components := by
    rw [hht]; omega
  have harea : layoutArea L e
      = ⟨L.editorMargin + L.labelWidth, L.editorMargin,
          L.editorWidth - 2 * L.editorMargin - L.labelWidth,
          stackHeight L e.heap e.components⟩ := by
    simp only [layoutArea, getLocalBounds, Rectangle.reduced, Rectangle.removeFromRight,
      hwd1, hht1, Rectangle.mk.injEq, wrapInt]
    refine ⟨?_, ?_, ?_, ?_⟩ <;> omega
  obtain ⟨heap1, r1, hrun, hr1, _, hbd⟩ :=
    resizedLoop_layout L hp hs hb hc e.components (layoutArea L e) e.heap hinv.live
      hinv.nodup (by rw [harea]; exact hm) (by rw [harea]; simp only; omega)
      (by rw [harea])
  refine ⟨heap1, r1, hrun, by simp only [resized, hrun], ?_, hwd1, hht1, ?_⟩
  · rw [hr1, harea]; simp
  · intro i c hi
    obtain ⟨w, hw1, hk⟩ := hinv.live c (List.mem_iff_getElem?.2 ⟨i, hi⟩)
    refine ⟨w, hw1, hk, ?_⟩
    rw [hbd i c hi, harea]
    simp only [rowTop, rowHeight, hw1]

/-! ## Main theorems -/

/-- C1. In an editor state in which the five mode-dependent controls exist (the
lookups of the five IDs find children, the frequency control being none of the
other four), `updateUIcomponents` and `timerCallback` complete, the lookups find
the same children afterwards, and: in automatic mode the frequency control is
disabled and the other four are enabled; otherwise the frequency control is
enabled and the other four are disabled. -/
theorem C1_mode_enablement (P : WahWahAudioProcessor) (e : WahWahAudioProcessorEditor)
    (cf cl cm ca cr : Nat)
    (hf : findChildWithID e P.paramFrequency = some cf)
    (hl : findChildWithID e P.paramLFOfrequency = some cl)
    (hm : findChildWithID e P.paramMixLFOandEnvelope = some cm)
    (ha : findChildWithID e P.paramEnvelopeAttack = some ca)
    (hr : findChildWithID e P.paramEnvelopeRelease = some cr)
    (hfl : cf ≠ cl) (hfm : cf ≠ cm) (hfa : cf ≠ ca) (hfr : cf ≠ cr) :
    ∃ e1, updateUIcomponents P e = some (e1, []) ∧ timerCallback P e = some (e1, []) ∧
      (findChildWithID e1 P.paramFrequency = some cf ∧
       findChildWithID e1 P.paramLFOfrequency = some cl ∧
       findChildWithID e1 P.paramMixLFOandEnvelope = some cm ∧
       findChildWithID e1 P.paramEnvelopeAttack = some ca ∧
       findChildWithID e1 P.paramEnvelopeRelease = some cr) ∧
      (P.paramModeTargetValue = P.modeAutomatic →
        enabledAt e1 cf = some false ∧ enabledAt e1 cl = some true ∧
        enabledAt e1 cm = some true ∧ enabledAt e1 ca = some true ∧
        enabledAt e1 cr = some true) ∧
      (P.paramModeTargetValue ≠ P.modeAutomatic →
        enabledAt e1 cf = some true ∧ enabledAt e1 cl = some false ∧
        enabledAt e1 cm = some false ∧ enabledAt e1 ca = some false ∧
        enabledAt e1 cr = some false) := by
  by_cases hmode : P.paramModeTargetValue = P.modeAutomatic
  · have g := findChildWithID_setFrequencySlider P e
    obtain ⟨e1, e2, e3, e4, e5, h1, h2, h3, h4, h5, hfind, hen, _⟩ :=
      setChildEnabled_chain (setFrequencySlider P e) P.paramFrequency P.paramLFOfrequency
        P.paramMixLFOandEnvelope P.paramEnvelopeAttack P.paramEnvelopeRelease false true
        cf cl cm ca cr (by rw [g]; exact hf) (by rw [g]; exact hl) (by rw [g]; exact hm)
        (by rw [g]; exact ha) (by rw [g]; exact hr)
    have hrun : updateUIcomponents P e = some (e5, []) := by
      simp [updateUIcomponents, hmode, h1, h2, h3, h4, h5]
    refine ⟨e5, hrun, hrun, ?_, ?_, ?_⟩
    · simp only [hfind, g]; exact ⟨hf, hl, hm, ha, hr⟩
    · intro _
      simp only [hen]
      refine ⟨?_, ?_, ?_, ?_, ?_⟩
      · simp [hfl, hfm, hfa, hfr]
      · split_ifs <;> rfl
      · split_ifs <;> rfl
      · split_ifs <;> rfl
      · simp
    · intro hne; exact absurd hmode hne
  · obtain ⟨e1, e2, e3, e4, e5, h1, h2, h3, h4, h5, hfind, hen, _⟩ :=
      setChildEnabled_chain e P.paramFrequency P.paramLFOfrequency
        P.paramMixLFOandEnvelope P.paramEnvelopeAttack P.paramEnvelopeRelease true false
        cf cl cm ca cr hf hl hm ha hr
    have hrun : updateUIcomponents P e = some (e5, []) := by
      simp [updateUIcomponents, hmode, h1, h2, h3, h4, h5]
    refine ⟨e5, hrun, hrun, ?_, ?_, ?_⟩
    · simp only [hfind]; exact ⟨hf, hl, hm, ha, hr⟩
    · intro h; exact absurd h hmode
    · intro _
      simp only [hen]
      refine ⟨?_, ?_, ?_, ?_, ?_⟩
      · simp [hfl, hfm, hfa, hfr]
      · split_ifs <;> rfl
      · split_ifs <;> rfl
      · split_ifs <;> rfl
      · simp

/-- C10. When `updateUIcomponents` completes: in manual mode the values held by
every widget are the same before and after; in automatic mode the values of every
widget other than the child found for the ID of `paramFrequency` are unchanged,
and that child, when it is a slider, has its value set to `centreFrequency`
(its other values unchanged), and otherwise is unchanged as well. -/
theorem C10_only_frequency_value_written (P : WahWahAudioProcessor)
    (e e1 : WahWahAudioProcessorEditor) (tr : List Call)
    (h : updateUIcomponents P e = some (e1, tr)) :
    (P.paramModeTargetValue ≠ P.modeAutomatic → ∀ p, valueAt e1 p = valueAt e p) ∧
    (P.paramModeTargetValue = P.modeAutomatic →
      (∀ p, findChildWithID e P.paramFrequency ≠ some p → valueAt e1 p = valueAt e p) ∧
      (∀ c w, findChildWithID e P.paramFrequency = some c → e.heap[c]? = some w →
        (w.cls = .slider →
          valueAt e1 c = some (P.centreFrequency, w.toggleState, w.selectedId)) ∧
        (w.cls ≠ .slider → valueAt e1 c = valueAt e c))) := by
  by_cases hmode : P.paramModeTargetValue = P.modeAutomatic
  · refine ⟨fun hne => absurd hmode hne, fun _ => ?_⟩
    simp only [updateUIcomponents, hmode, if_true, Option.bind_eq_some] at h
    obtain ⟨s1, h1, s2, h2, s3, h3, s4, h4, s5, h5, h6⟩ := h
    have hs : s5 = e1 := by injection h6 with h6; exact congrArg Prod.fst h6
    subst hs
    have hv : ∀ p, valueAt s5 p = valueAt (setFrequencySlider P e) p := by
      intro p
      rw [valueAt_setChildEnabled _ _ _ _ h5, valueAt_setChildEnabled _ _ _ _ h4,
        valueAt_setChildEnabled _ _ _ _ h3, valueAt_setChildEnabled _ _ _ _ h2,
        valueAt_setChildEnabled _ _ _ _ h1]
    refine ⟨?_, ?_⟩
    · intro p hp
      rw [hv]
      rcases setFrequencySlider_cases P e with hq | ⟨c, w, hc, hw, _, hq⟩
      · rw [hq]
      · rw [hq]
        have hne : c ≠ p := fun hcp => hp (hcp ▸ hc)
        simp [valueAt, List.getElem?_set, hne]
    · intro c w hc hw
      rw [hv]
      refine ⟨fun hs => ?_, fun hs => ?_⟩
      · simp [setFrequencySlider, hc, hw, hs, valueAt, List.getElem?_set,
          lt_of_getElem?_some hw]
      · simp [setFrequencySlider, hc, hw, hs]
  · refine ⟨fun _ => ?_, fun heq => absurd heq hmode⟩
    simp only [updateUIcomponents, hmode, if_false, Option.bind_eq_some] at h
    obtain ⟨s1, h1, s2, h2, s3, h3, s4, h4, s5, h5, h6⟩ := h
    have hs : s5 = e1 := by injection h6 with h6; exact congrArg Prod.fst h6
    subst hs
    intro p
    rw [valueAt_setChildEnabled _ _ _ _ h5, valueAt_setChildEnabled _ _ _ _ h4,
      valueAt_setChildEnabled _ _ _ _ h3, valueAt_setChildEnabled _ _ _ _ h2,
      valueAt_setChildEnabled _ _ _ _ h1]

/-- C6. A completed construction makes exactly one `connect` call, to host
`127.0.0.1` and port `9001`; the value-change handlers (run directly or through
the framework notification), `resized`, `updateUIcomponents` and `timerCallback`
make no `connect` call. -/
theorem C6_fixed_destination (L : EditorConstants) (P : WahWahAudioProcessor)
    (e e1 : WahWahAudioProcessorEditor) (tr : List Call) :
    (∀ ok, ctor L P ok = some (e1, tr) → connects tr = [Call.connect "127.0.0.1" 9001]) ∧
    (∀ cb ok, runCallback e cb ok = some (e1, tr) → connects tr = []) ∧
    (∀ c ok, valueChanged e c ok = some (e1, tr) → connects tr = []) ∧
    (resized L e = some (e1, tr) → connects tr = []) ∧
    (updateUIcomponents P e = some (e1, tr) → connects tr = []) ∧
    (timerCallback P e = some (e1, tr) → connects tr = []) := by
  have hcb : ∀ cb ok, runCallback e cb ok = some (e1, tr) → connects tr = [] := by
    intro cb ok h
    obtain ⟨_, id, v, ht, _⟩ := runCallback_some h
    subst ht
    cases ok <;> simp [connects]
  refine ⟨?_, hcb, ?_, ?_, ?_, ?_⟩
  · intro ok h
    obtain ⟨s, e0, _, _, _, ht⟩ := ctor_some h
    subst ht
    cases ok <;> simp [connects]
  · intro c ok h
    obtain ⟨w, _, hw | ⟨cb, _, hrun⟩⟩ := valueChanged_some h
    · rw [hw.2.2]; rfl
    · exact hcb cb ok hrun
  · intro h
    rw [(resized_some h).1]; rfl
  · intro h
    rw [updateUIcomponents_trace h]; rfl
  · intro h
    rw [updateUIcomponents_trace h]; rfl

/-- The editor produced by the constructor does not depend on the result of
`connect`, and a completed construction makes exactly one `connect` call and no
`send` call; the editor left by a value-change handler does not depend on the
result of `send` (it is the editor the handler started from), and a completed
handler run makes exactly one `send` call and no `connect` call. -/
theorem connect_send_result_ignored (L : EditorConstants) (P : WahWahAudioProcessor)
    (e : WahWahAudioProcessorEditor) :
    (∀ ok, (ctor L P ok).map Prod.fst = (ctor L P true).map Prod.fst) ∧
    (∀ ok e1 tr, ctor L P ok = some (e1, tr) →
      (connects tr).length = 1 ∧ sends tr = []) ∧
    (∀ cb ok, (runCallback e cb ok).map Prod.fst = (runCallback e cb true).map Prod.fst) ∧
    (∀ cb ok e1 tr, runCallback e cb ok = some (e1, tr) →
      e1 = e ∧ (sends tr).length = 1 ∧ connects tr = []) ∧
    (∀ c ok, (valueChanged e c ok).map Prod.fst = (valueChanged e c true).map Prod.fst) ∧
    (∀ c ok e1 tr, valueChanged e c ok = some (e1, tr) →
      e1 = e ∧ (sends tr).length ≤ 1 ∧ connects tr = []) := by
  have hcb : ∀ cb ok e1 tr, runCallback e cb ok = some (e1, tr) →
      e1 = e ∧ (sends tr).length = 1 ∧ connects tr = [] := by
    intro cb ok e1 tr h
    obtain ⟨he, id, v, ht, _⟩ := runCallback_some h
    subst ht
    refine ⟨he, ?_, ?_⟩ <;> cases ok <;> simp [sends, connects]
  refine ⟨?_, ?_, runCallback_fst e, hcb, valueChanged_fst e, ?_⟩
  · intro ok
    unfold ctor
    cases hl : ctorLoop L P 0 P.getParameters
        { e := {}, comboBoxCounter := 0, editorHeight := wrapInt (2 * L.editorMargin) } with
    | none => rfl
    | some s =>
      cases hz : setSize L s.e L.editorWidth
          (wrapInt (s.editorHeight + wrapInt (s.e.components.length * L.editorPadding))) with
      | none => simp [hz]
      | some r => simp [hz]
  · intro ok e1 tr h
    obtain ⟨s, e0, _, _, _, ht⟩ := ctor_some h
    subst ht
    constructor <;> cases ok <;> simp [sends, connects]
  · intro c ok e1 tr h
    obtain ⟨w, _, hw | ⟨cb, _, hrun⟩⟩ := valueChanged_some h
    · rw [hw.2.2]; exact ⟨hw.2.1, by simp [sends], rfl⟩
    · obtain ⟨h1, h2, h3⟩ := hcb cb ok e1 tr hrun
      exact ⟨h1, by omega, h3⟩

/-- C8, as the code has it. After a completed construction the only `setSize`
call has width `editorWidth` and as height the `int` result of
`2 * editorMargin + sliderHeight * #sliders + buttonHeight * #toggles +
comboBoxHeight * #comboBoxes + editorPadding * #components`: that value itself
whenever it fits an `int`. The numbers of sliders, toggle buttons and combo boxes
created are the numbers of parameters that have an ID and the type string
`"Slider"`, `"ToggleButton"`, `"ComboBox"`, and the components are these and no
others (so a parameter without an ID or with another type string contributes
nothing). -/
theorem C8_editor_size (L : EditorConstants) (P : WahWahAudioProcessor) (ok : Bool)
    (e : WahWahAudioProcessorEditor) (tr : List Call) (h : ctor L P ok = some (e, tr)) :
    (∀ w hgt, Call.setSize w hgt ∈ tr ↔
      w = L.editorWidth ∧ hgt = wrapInt (statedHeight L e)) ∧
    (fitsInt (statedHeight L e) →
      ∀ w hgt, Call.setSize w hgt ∈ tr ↔
        w = L.editorWidth ∧
        hgt = 2 * L.editorMargin + L.sliderHeight * e.sliders.length
          + L.buttonHeight * e.toggles.length + L.comboBoxHeight * e.comboBoxes.length
          + L.editorPadding * e.components.length) ∧
    e.sliders.length = (paramsOfType P "Slider").length ∧
    e.toggles.length = (paramsOfType P "ToggleButton").length ∧
    e.comboBoxes.length = (paramsOfType P "ComboBox").length ∧
    e.components.length = e.sliders.length + e.toggles.length + e.comboBoxes.length := by
  obtain ⟨s, hl, _, _, _, he, _, ht⟩ := ctor_spec h
  obtain ⟨⟨c1, c2, c3, c4, c5⟩, a, b, d⟩ := ctorLoop_counts _ _ _ _ hl (ctor_init L).2
  have hs : e.sliders = s.e.sliders := by rw [he]
  have htg : e.toggles = s.e.toggles := by rw [he]
  have hcb : e.comboBoxes = s.e.comboBoxes := by rw [he]
  have hcs : e.components = s.e.components := by rw [he]
  have hheight : wrapInt (s.editorHeight + wrapInt (s.e.components.length * L.editorPadding))
      = wrapInt (statedHeight L e) := by
    rw [c5, wrapInt_add_wrapInt, wrapInt_wrapInt_add]
    congr 1
    simp only [statedHeight, hs, htg, hcb, hcs]
    ring
  have hgen : ∀ w hgt, Call.setSize w hgt ∈ tr ↔
      w = L.editorWidth ∧ hgt = wrapInt (statedHeight L e) := by
    intro w hgt
    subst ht
    rw [hheight]
    cases ok <;> simp
  refine ⟨hgen, ?_, ?_, ?_, ?_, ?_⟩
  · intro hfit w hgt
    rw [hgen w hgt, wrapInt_of_fits hfit]
    rfl
  · have := congrArg List.length a
    rw [hs, ← c1]
    simpa [paramsOfType] using this
  · have := congrArg List.length b
    rw [htg, ← c2]
    simpa [paramsOfType] using this
  · have := congrArg List.length d
    rw [hcb, ← c3]
    simpa [paramsOfType] using this
  · rw [hs, htg, hcb, hcs]; exact c4

/-- C8 as stated fails: with a slider height of 2000000000 and two sliders the
exact value is 4000000040, which does not fit an `int`; the constructor completes
and its only `setSize` call has height -294967256. -/
theorem C8_counterexample :
    ¬ sizeAsStated tallConstants twoSliderProcessor true ∧
    builtTrace tallConstants twoSliderProcessor true
      = [Call.setSize 500 (-294967256), Call.startTimer 50, Call.connect "127.0.0.1" 9001,
          Call.dbg "Connected to UDP port 9001."] ∧
    statedHeight tallConstants (builtEditor tallConstants twoSliderProcessor true)
      = 4000000040 := by
  refine ⟨?_, by decide, by decide⟩
  rintro ⟨e, tr, h, hmem⟩
  have hc : ctor tallConstants twoSliderProcessor true
      = some (builtEditor tallConstants twoSliderProcessor true,
          builtTrace tallConstants twoSliderProcessor true) := by decide
  rw [hc] at h
  injection h with h
  injection h with h1 h2
  subst h1
  subst h2
  revert hmem
  decide

/-- C2. After a completed construction the slider (combo box) attachments pair,
in order, the IDs of the parameters of type `"Slider"` (`"ComboBox"`) with the
sliders (combo boxes) built from them, and the widget built from the parameter
with ID `p` carries the handler that captured the widget itself and `p`. In every
editor state in which that widget is still a slider (combo box) with that handler,
a value change runs the handler, which leaves the editor as it is and makes
exactly one `send` call, with address `"/param/" ++ p` and as only argument the
slider's value (the combo box's selected item ID) cast to `float`. -/
theorem C2_value_change_message (L : EditorConstants) (P : WahWahAudioProcessor) (ok : Bool)
    (e : WahWahAudioProcessorEditor) (tr : List Call) (h : ctor L P ok = some (e, tr)) :
    (e.sliderAttachments.map Prod.fst = (paramsOfType P "Slider").map (fun q => q.paramID) ∧
      e.sliderAttachments.map Prod.snd = e.sliders) ∧
    (e.comboBoxAttachments.map Prod.fst
        = (paramsOfType P "ComboBox").map (fun q => q.paramID) ∧
      e.comboBoxAttachments.map Prod.snd = e.comboBoxes) ∧
    (∀ p c, (p, c) ∈ e.sliderAttachments →
      ∃ w, e.heap[c]? = some w ∧ w.cls = .slider ∧
        w.onChange = some (.sliderOnValueChange c p)) ∧
    (∀ p c, (p, c) ∈ e.comboBoxAttachments →
      ∃ w, e.heap[c]? = some w ∧ w.cls = .comboBox ∧
        w.onChange = some (.comboBoxOnChange c p)) ∧
    (∀ (e2 : WahWahAudioProcessorEditor) (p : String) (c : Nat) (w2 : Component)
        (sendOk : Bool), e2.heap[c]? = some w2 → w2.cls = .slider →
      w2.onChange = some (.sliderOnValueChange c p) →
      ∃ tr2, valueChanged e2 c sendOk = some (e2, tr2) ∧
        sends tr2 = [Call.send ("/param/" ++ p) (.ofDouble w2.value)]) ∧
    (∀ (e2 : WahWahAudioProcessorEditor) (p : String) (c : Nat) (w2 : Component)
        (sendOk : Bool), e2.heap[c]? = some w2 → w2.cls = .comboBox →
      w2.onChange = some (.comboBoxOnChange c p) →
      ∃ tr2, valueChanged e2 c sendOk = some (e2, tr2) ∧
        sends tr2 = [Call.send ("/param/" ++ p) (.ofInt w2.selectedId)]) := by
  obtain ⟨s, hl, _, _, _, he, _, _⟩ := ctor_spec h
  obtain ⟨⟨c1, _, c3, _, _⟩, a, _, d⟩ := ctorLoop_counts _ _ _ _ hl (ctor_init L).2
  obtain ⟨H, hinv, _⟩ := ctor_inv h
  have hsa : e.sliderAttachments = s.e.sliderAttachments := by rw [he]
  have hca : e.comboBoxAttachments = s.e.comboBoxAttachments := by rw [he]
  have hs : e.sliders = s.e.sliders := by rw [he]
  have hcb : e.comboBoxes = s.e.comboBoxes := by rw [he]
  refine ⟨⟨?_, ?_⟩, ⟨?_, ?_⟩, hinv.sliders, hinv.combos, ?_, ?_⟩
  · rw [hsa, a]; simp [paramsOfType]
  · rw [hsa, hs, c1]
  · rw [hca, d]; simp [paramsOfType]
  · rw [hca, hcb, c3]
  · intro e2 p c w2 sendOk hw hk hcb2
    cases sendOk <;> simp [valueChanged, runCallback, hw, hk, hcb2, sends]
  · intro e2 p c w2 sendOk hw hk hcb2
    cases sendOk <;> simp [valueChanged, runCallback, hw, hk, hcb2, sends]

/-- C5, as the code has it. When every parameter that has an ID has one of the
type strings `"Slider"`, `"ToggleButton"`, `"ComboBox"` (at its index in
`parameterTypes`), the constructor completes and `components` holds exactly one
control per parameter that has an ID, in parameter order: the controls are
distinct live widgets, none a label, and the `k`-th one carries the ID and the
name of the `k`-th such parameter. -/
theorem C5_components_of_typed_parameters (L : EditorConstants) (P : WahWahAudioProcessor)
    (ok : Bool)
    (htyped : ∀ (i : Nat) (q : AudioProcessorParameterWithID),
      P.getParameters[i]? = some (some q) → knownType ((P.parameterTypes[i]?).getD "")) :
    componentsMatchParameters L P ok ∧
    ∀ e tr, ctor L P ok = some (e, tr) →
      e.components.length = (withIDs P.getParameters).length ∧ e.components.Nodup ∧
      ∀ c ∈ e.components, ∃ w, e.heap[c]? = some w ∧ w.cls ≠ .label := by
  obtain ⟨e, tr, h, hid⟩ := ctor_typed L P ok htyped
  refine ⟨⟨e, tr, h, hid⟩, ?_⟩
  intro e1 tr1 h1
  rw [h] at h1
  injection h1 with h1
  injection h1 with h1 h2
  subst h1
  obtain ⟨H, hinv, _⟩ := ctor_inv h
  refine ⟨?_, hinv.nodup, hinv.live⟩
  have := congrArg List.length hid
  simpa using this

/-- C5 as stated fails: for a slider followed by a parameter of type `"Knob"`,
both with an ID, the constructor builds one control, not two, and that control
ends up with the ID of the second parameter. -/
theorem C5_counterexample :
    ¬ componentsMatchParameters sampleConstants knobProcessor true ∧
    (ctor sampleConstants knobProcessor true).map
        (fun r => r.1.components.map (idNameAt r.1)) = some [some ("k", "k")] ∧
    (withIDs knobProcessor.getParameters).map (fun q => some (q.paramID, q.name))
      = [some ("f", "f"), some ("k", "k")] := by
  refine ⟨?_, by decide, by decide⟩
  rintro ⟨e, tr, h, hm⟩
  have hlen : ((ctor sampleConstants knobProcessor true).map
      (fun r => r.1.components.length)) = some 1 := by decide
  rw [h] at hlen
  simp only [Option.map_some', Option.some.injEq] at hlen
  have h2 := congrArg List.length hm
  rw [List.length_map, hlen] at h2
  revert h2
  decide

/-- C9. When every parameter of the processor's list has an ID and one of the
three known type strings, and the list has parameters with the IDs of
`paramFrequency`, `paramLFOfrequency`, `paramMixLFOandEnvelope`,
`paramEnvelopeAttack` and `paramEnvelopeRelease`, the constructor completes, the
five lookups by ID find a child in the editor it leaves, and `updateUIcomponents`
completes on that editor whatever the mode (so in the automatic and in the manual
branch no lookup yields null). -/
theorem C9_lookups_succeed (L : EditorConstants) (P : WahWahAudioProcessor) (ok : Bool)
    (hall : ∀ i, i < P.getParameters.length →
      ∃ q, P.getParameters[i]? = some (some q) ∧ knownType ((P.parameterTypes[i]?).getD ""))
    (hf : ∃ q, some q ∈ P.getParameters ∧ q.paramID = P.paramFrequency)
    (hl : ∃ q, some q ∈ P.getParameters ∧ q.paramID = P.paramLFOfrequency)
    (hm : ∃ q, some q ∈ P.getParameters ∧ q.paramID = P.paramMixLFOandEnvelope)
    (ha : ∃ q, some q ∈ P.getParameters ∧ q.paramID = P.paramEnvelopeAttack)
    (hr : ∃ q, some q ∈ P.getParameters ∧ q.paramID = P.paramEnvelopeRelease) :
    ∃ e tr, ctor L P ok = some (e, tr) ∧
      (∃ cf cl cm ca cr,
        findChildWithID e P.paramFrequency = some cf ∧
        findChildWithID e P.paramLFOfrequency = some cl ∧
        findChildWithID e P.paramMixLFOandEnvelope = some cm ∧
        findChildWithID e P.paramEnvelopeAttack = some ca ∧
        findChildWithID e P.paramEnvelopeRelease = some cr) ∧
      ∀ mode, ∃ e1,
        updateUIcomponents { P with paramModeTargetValue := mode } e = some (e1, []) := by
  have htyped : ∀ (i : Nat) (q : AudioProcessorParameterWithID),
      P.getParameters[i]? = some (some q) → knownType ((P.parameterTypes[i]?).getD "") := by
    intro i q hq
    obtain ⟨q1, _, hk⟩ := hall i (lt_of_getElem?_some hq)
    exact hk
  obtain ⟨e, tr, h, hid⟩ := ctor_typed L P ok htyped
  obtain ⟨H, _, _, _, hkids⟩ := ctor_inv h
  have hfind : ∀ t : String, (∃ q, some q ∈ P.getParameters ∧ q.paramID = t) →
      ∃ c, findChildWithID e t = some c := by
    rintro t ⟨q, hq, rfl⟩
    obtain ⟨c, hc, hcq⟩ := component_of_parameter hid hq
    exact findChildWithID_of_child (hkids c hc) hcq
  obtain ⟨cf, hcf⟩ := hfind _ hf
  obtain ⟨cl, hcl⟩ := hfind _ hl
  obtain ⟨cm, hcm⟩ := hfind _ hm
  obtain ⟨ca, hca⟩ := hfind _ ha
  obtain ⟨cr, hcr⟩ := hfind _ hr
  refine ⟨e, tr, h, ⟨cf, cl, cm, ca, cr, hcf, hcl, hcm, hca, hcr⟩, ?_⟩
  intro mode
  by_cases hmode : mode = P.modeAutomatic
  · subst hmode
    have g := findChildWithID_setFrequencySlider
      { P with paramModeTargetValue := P.modeAutomatic } e
    obtain ⟨e1, e2, e3, e4, e5, h1, h2, h3, h4, h5, _⟩ :=
      setChildEnabled_chain
        (setFrequencySlider { P with paramModeTargetValue := P.modeAutomatic } e)
        P.paramFrequency P.paramLFOfrequency
        P.paramMixLFOandEnvelope P.paramEnvelopeAttack P.paramEnvelopeRelease false true
        cf cl cm ca cr (by rw [g]; exact hcf) (by rw [g]; exact hcl) (by rw [g]; exact hcm)
        (by rw [g]; exact hca) (by rw [g]; exact hcr)
    exact ⟨e5, by simp [updateUIcomponents, h1, h2, h3, h4, h5]⟩
  · obtain ⟨e1, e2, e3, e4, e5, h1, h2, h3, h4, h5, _⟩ :=
      setChildEnabled_chain e P.paramFrequency P.paramLFOfrequency
        P.paramMixLFOandEnvelope P.paramEnvelopeAttack P.paramEnvelopeRelease true false
        cf cl cm ca cr hcf hcl hcm hca hcr
    exact ⟨e5, by simp [updateUIcomponents, hmode, h1, h2, h3, h4, h5]⟩

/-- C7, as the code has it. With non-negative layout constants, an
`editorWidth` of at least `2 * editorMargin + labelWidth`, and an editor width and
height (`editorWidth` and `2 * editorMargin` plus the nominal heights and paddings
of all components) that fit an `int`: on the editor a completed construction
leaves, `resized` completes and gives the `i`-th component the rectangle with left
edge `editorMargin + labelWidth`, top `editorMargin` plus the sum over the earlier
components of (nominal height + `editorPadding`), width
`max 0 (editorWidth - 2 * editorMargin - labelWidth)` and exactly its nominal
height. Hence an earlier component ends at least one padding above a later one
and the two share no point; the local bounds reduced by `editorMargin` contain
every component, edge-wise and point-wise; and the running rectangle of the loop
ends with height zero. -/
theorem C7_vertical_stack (L : EditorConstants) (P : WahWahAudioProcessor) (ok : Bool)
    (e : WahWahAudioProcessorEditor) (tr : List Call)
    (hm : 0 ≤ L.editorMargin) (hp : 0 ≤ L.editorPadding) (hw : 0 ≤ L.editorWidth)
    (hlw : 0 ≤ L.labelWidth) (hs : 0 ≤ L.sliderHeight) (hb : 0 ≤ L.buttonHeight)
    (hc : 0 ≤ L.comboBoxHeight)
    (hwide : 2 * L.editorMargin + L.labelWidth ≤ L.editorWidth)
    (hfitW : fitsInt L.editorWidth)
    (hfitH : fitsInt (2 * L.editorMargin + stackHeight L e.heap e.components))
    (h : ctor L P ok = some (e, tr)) :
    ∃ e1 r1,
      resized L e = some (e1, []) ∧
      resizedLoop L e.components (layoutArea L e) e.heap = some (e1.heap, r1) ∧
      r1.h = 0 ∧
      (∀ (i c : Nat), e.components[i]? = some c →
        ∃ w, e.heap[c]? = some w ∧ w.cls ≠ .label ∧
          boundsAt e1 c = some (Rectangle.mk (L.editorMargin + L.labelWidth)
            (rowTop L e.heap e.components i)
            (max 0 (L.editorWidth - 2 * L.editorMargin - L.labelWidth))
            (nominalHeight L w.cls))) ∧
      (∀ (i j ci cj : Nat) (bi bj : Rectangle), i < j →
        e.components[i]? = some ci → e.components[j]? = some cj →
        boundsAt e1 ci = some bi → boundsAt e1 cj = some bj →
        bi.bottom + L.editorPadding ≤ bj.y ∧
        ∀ px py, ¬ (bi.containsPoint px py ∧ bj.containsPoint px py)) ∧
      (∀ (i c : Nat) (b : Rectangle), e.components[i]? = some c → boundsAt e1 c = some b →
        ((getLocalBounds e1).reduced L.editorMargin).x ≤ b.x ∧
        ((getLocalBounds e1).reduced L.editorMargin).y ≤ b.y ∧
        b.bottom ≤ ((getLocalBounds e1).reduced L.editorMargin).bottom ∧
        (∀ px py, b.containsPoint px py →
          ((getLocalBounds e1).reduced L.editorMargin).containsPoint px py) ∧
        ((getLocalBounds e1).reduced L.editorMargin).containsRect b) ∧
      (∀ (i c : Nat), e.components[i]? = some c → rowAsStated L e e1 i c) := by
  obtain ⟨heap1, r1, hrun, hres, hr1, hwd, hht, hbd⟩ :=
    ctor_layout L P ok e tr hm hp hw hlw hs hb hc hwide hfitW hfitH h
  have hbd1 : ∀ (i c : Nat) (b : Rectangle), e.components[i]? = some c →
      (heap1[c]?).map (fun v : Component => v.bounds) = some b →
      b.x = L.editorMargin + L.labelWidth ∧
      b.y = L.editorMargin + stackHeight L e.heap (e.components.take i) ∧
      b.w = max 0 (L.editorWidth - 2 * L.editorMargin - L.labelWidth) ∧
      b.h = rowHeight L e.heap c := by
    intro i c b hi hb1
    obtain ⟨w, hw1, _, hb2⟩ := hbd i c hi
    rw [hb2] at hb1
    injection hb1 with hb1
    subst hb1
    simp [rowTop, rowHeight, hw1]
  have hall := stackHeight_nonneg L hp hs hb hc e.heap
  obtain ⟨_, hW⟩ := hfitW
  obtain ⟨_, hH⟩ := hfitH
  have hinside : ∀ (i c : Nat) (b : Rectangle), e.components[i]? = some c →
      (heap1[c]?).map (fun v : Component => v.bounds) = some b →
      ((getLocalBounds { e with heap := heap1 }).reduced L.editorMargin).x ≤ b.x ∧
      ((getLocalBounds { e with heap := heap1 }).reduced L.editorMargin).y ≤ b.y ∧
      b.bottom ≤ ((getLocalBounds { e with heap := heap1 }).reduced L.editorMargin).bottom ∧
      (∀ px py, b.containsPoint px py →
        ((getLocalBounds { e with heap := heap1 }).reduced
          L.editorMargin).containsPoint px py) ∧
      ((getLocalBounds { e with heap := heap1 }).reduced L.editorMargin).containsRect b := by
    intro i c b hi hb1
    obtain ⟨xb, yb, wb, hb2⟩ := hbd1 i c b hi hb1
    have h1 := stackHeight_take_succ L e.heap e.components i c hi
    have h2 := stackHeight_take_le L hp hs hb hc e.heap e.components (i + 1)
    have h3 := hall (e.components.take i)
    have h4 := hall e.components
    simp only [getLocalBounds, Rectangle.reduced, Rectangle.bottom, Rectangle.containsPoint,
      Rectangle.containsRect, hwd, hht, wrapInt]
    refine ⟨by omega, by omega, by omega, ?_, ?_⟩
    · rintro px py ⟨h5, h6, h7, h8⟩
      refine ⟨?_, ?_, ?_, ?_⟩ <;> omega
    · refine ⟨?_, ?_, ?_, ?_⟩ <;> omega
  refine ⟨{ e with heap := heap1 }, r1, hres, hrun, hr1, ?_, ?_, hinside, ?_⟩
  · intro i c hi
    obtain ⟨w, hw1, hk, hb2⟩ := hbd i c hi
    exact ⟨w, hw1, hk, hb2⟩
  · intro i j ci cj bi bj hij hi hj hbi hbj
    obtain ⟨xi, yi, wi, hi1⟩ := hbd1 i ci bi hi hbi
    obtain ⟨xj, yj, wj, hj1⟩ := hbd1 j cj bj hj hbj
    have h1 := stackHeight_take_succ L e.heap e.components i ci hi
    have h2 := stackHeight_take_mono L hp hs hb hc e.heap e.components (i + 1) j hij
    have hsep : bi.bottom + L.editorPadding ≤ bj.y := by
      simp only [Rectangle.bottom]; omega
    refine ⟨hsep, ?_⟩
    rintro px py ⟨⟨_, _, _, h3⟩, ⟨_, h4, _, _⟩⟩
    simp only [Rectangle.bottom] at hsep
    omega
  · intro i c hi
    obtain ⟨w, hw1, hk, hb2⟩ := hbd i c hi
    exact ⟨w, _, hw1, hb2, rfl, rfl, (hinside i c _ hi hb2).2.2.2.2⟩

/-- C7 as stated fails, in two ways. With `editorWidth = 50` (all constants
non-negative) the constructor and `resized` complete on the sample processor, the
first component is placed at `x = 110` with width zero, and the reduced local
bounds, which end at `x = 40`, do not contain it. With `sliderHeight = 2000000000`
and two sliders the editor height does not fit an `int`, the editor gets height
zero, and the first slider gets height zero, not its nominal height. -/
theorem C7_counterexample :
    (0 ≤ narrowConstants.editorMargin ∧ 0 ≤ narrowConstants.editorPadding ∧
      0 ≤ narrowConstants.editorWidth ∧ 0 ≤ narrowConstants.labelWidth ∧
      0 ≤ narrowConstants.sliderHeight ∧ 0 ≤ narrowConstants.buttonHeight ∧
      0 ≤ narrowConstants.comboBoxHeight) ∧
    boundsAt (resizedEditor narrowConstants
        (builtEditor narrowConstants sampleProcessor true)) 0
      = some (Rectangle.mk 110 10 0 25) ∧
    (getLocalBounds (resizedEditor narrowConstants
        (builtEditor narrowConstants sampleProcessor true))).reduced
          narrowConstants.editorMargin
      = Rectangle.mk 10 10 30 210 ∧
    ¬ stackAsStated narrowConstants sampleProcessor true ∧
    (0 ≤ tallConstants.editorMargin ∧ 0 ≤ tallConstants.editorPadding ∧
      0 ≤ tallConstants.editorWidth ∧ 0 ≤ tallConstants.labelWidth ∧
      0 ≤ tallConstants.sliderHeight ∧ 0 ≤ tallConstants.buttonHeight ∧
      0 ≤ tallConstants.comboBoxHeight) ∧
    (builtEditor tallConstants twoSliderProcessor true).height = 0 ∧
    boundsAt (resizedEditor tallConstants
        (builtEditor tallConstants twoSliderProcessor true)) 0
      = some (Rectangle.mk 110 10 380 0) ∧
    ¬ stackAsStated tallConstants twoSliderProcessor true := by
  refine ⟨by decide, by decide, by decide, ?_, by decide, by decide, by decide, ?_⟩
  · rintro ⟨e, tr, e1, h, hr, hrows⟩
    have hc : ctor narrowConstants sampleProcessor true
        = some (builtEditor narrowConstants sampleProcessor true,
            builtTrace narrowConstants sampleProcessor true) := by decide
    rw [hc] at h
    injection h with h
    injection h with h1 h2
    subst h1
    have hr1 : resized narrowConstants (builtEditor narrowConstants sampleProcessor true)
        = some (resizedEditor narrowConstants
            (builtEditor narrowConstants sampleProcessor true), []) := by decide
    rw [hr1] at hr
    injection hr with hr
    injection hr with hr2 _
    subst hr2
    obtain ⟨w, b, _, hb, _, _, hin⟩ := hrows 0 0 (by decide)
    have hb1 : boundsAt (resizedEditor narrowConstants
        (builtEditor narrowConstants sampleProcessor true)) 0
        = some (Rectangle.mk 110 10 0 25) := by decide
    rw [hb1] at hb
    injection hb with hb
    subst hb
    revert hin
    decide
  · rintro ⟨e, tr, e1, h, hr, hrows⟩
    have hc : ctor tallConstants twoSliderProcessor true
        = some (builtEditor tallConstants twoSliderProcessor true,
            builtTrace tallConstants twoSliderProcessor true) := by decide
    rw [hc] at h
    injection h with h
    injection h with h1 h2
    subst h1
    have hr1 : resized tallConstants (builtEditor tallConstants twoSliderProcessor true)
        = some (resizedEditor tallConstants
            (builtEditor tallConstants twoSliderProcessor true), []) := by decide
    rw [hr1] at hr
    injection hr with hr
    injection hr with hr2 _
    subst hr2
    obtain ⟨w, b, hw, hb, _, hh, _⟩ := hrows 0 0 (by decide)
    have hb1 : boundsAt (resizedEditor tallConstants
        (builtEditor tallConstants twoSliderProcessor true)) 0
        = some (Rectangle.mk 110 10 380 0) := by decide
    have hk : ((builtEditor tallConstants twoSliderProcessor true).heap[0]?).map
        (fun v => nominalHeight tallConstants v.cls) = some 2000000000 := by decide
    rw [hb1] at hb
    injection hb with hb
    subst hb
    rw [hw] at hk
    simp only [Option.map_some', Option.some.injEq] at hk
    rw [hk] at hh
    revert hh
    decide

/-- C4, evaluated on a processor whose list is a slider with ID `f` and a toggle
button with ID `t`: the editor the constructor leaves is the same whether
`connect` succeeds or fails and one `connect` call is made; a change of the slider
(widget `0`) leaves the editor as it is and makes exactly one `send` call whether
`send` succeeds or fails; a change of the toggle button (widget `2`) makes no
`send` call at all, where one per change is stated. -/
theorem C4_toggle_change_makes_no_send :
    (ctor sampleConstants sliderToggleProcessor false).map Prod.fst
      = some (builtEditor sampleConstants sliderToggleProcessor true) ∧
    connects (builtTrace sampleConstants sliderToggleProcessor false)
      = [Call.connect "127.0.0.1" 9001] ∧
    (builtEditor sampleConstants sliderToggleProcessor true).components = [0, 2] ∧
    ((builtEditor sampleConstants sliderToggleProcessor true).heap[2]?).map
        (fun w => (w.cls, w.componentID, w.onChange))
      = some (WidgetClass.toggleButton, "t", none) ∧
    (valueChanged (builtEditor sampleConstants sliderToggleProcessor true) 0 false).map
        (fun r => (r.1, sends r.2))
      = some (builtEditor sampleConstants sliderToggleProcessor true,
          [Call.send "/param/f" (Float32.ofDouble 0)]) ∧
    (valueChanged (builtEditor sampleConstants sliderToggleProcessor true) 0 true).map
        (fun r => (r.1, sends r.2))
      = some (builtEditor sampleConstants sliderToggleProcessor true,
          [Call.send "/param/f" (Float32.ofDouble 0)]) ∧
    (valueChanged (builtEditor sampleConstants sliderToggleProcessor true) 2 false).map
        (fun r => sends r.2) = some [] ∧
    (valueChanged (builtEditor sampleConstants sliderToggleProcessor true) 2 true).map
        (fun r => sends r.2) = some [] := by
  decide

/-- C3, evaluated on a processor whose only parameter is a toggle button with ID
`t`: the constructor builds the toggle button (widget `0`, attached to `t`) and
assigns it no handler, and a change of its value makes no call at all, whatever
`send` would return - no message for `t` goes out. -/
theorem C3_toggle_change_sends_nothing :
    (ctor sampleConstants toggleProcessor true).map
        (fun r => (r.1.toggles, r.1.buttonAttachments, r.1.components))
      = some ([0], [("t", 0)], [0]) ∧
    ((builtEditor sampleConstants toggleProcessor true).heap[0]?).map
        (fun w => (w.cls, w.onChange)) = some (WidgetClass.toggleButton, none) ∧
    (valueChanged (builtEditor sampleConstants toggleProcessor true) 0 true).map
        (fun r => r.2) = some [] ∧
    (valueChanged (builtEditor sampleConstants toggleProcessor true) 0 false).map
        (fun r => r.2) = some [] := by
  decide

/-- Witness for C1 on the sample editor, whose frequency, LFO frequency, mix,
attack and release sliders are the widgets `2`, `4`, `6`, `8`, `10`. -/
theorem C1_mode_enablement_witness :
    ∃ e1, updateUIcomponents sampleProcessor sampleEditor = some (e1, []) ∧
      enabledAt e1 2 = some false ∧ enabledAt e1 4 = some true ∧
      enabledAt e1 10 = some true := by
  obtain ⟨e1, h, _, _, ha, _⟩ :=
    C1_mode_enablement sampleProcessor sampleEditor 2 4 6 8 10 (by decide) (by decide)
      (by decide) (by decide) (by decide) (by decide) (by decide) (by decide) (by decide)
  exact ⟨e1, h, (ha (by decide)).1, (ha (by decide)).2.1, (ha (by decide)).2.2.2.2⟩

/-- Witness for C10 on the sample editor in automatic mode: the LFO slider
(widget `4`) keeps its values and the frequency slider (widget `2`) gets the value
`centreFrequency`. -/
theorem C10_only_frequency_value_written_witness :
    valueAt sampleUpdated 4 = valueAt sampleEditor 4 ∧
    valueAt sampleUpdated 2 = some (sampleProcessor.centreFrequency, false, 0) :=
  ⟨((C10_only_frequency_value_written sampleProcessor sampleEditor sampleUpdated []
      (by decide)).2 (by decide)).1 4 (by decide),
   (((C10_only_frequency_value_written sampleProcessor sampleEditor sampleUpdated []
      (by decide)).2 (by decide)).2 2 (sampleEditor.heap.get ⟨2, by decide⟩)
      (by decide) (by decide)).1 (by decide)⟩

/-- Witness for C6 on the sample editor. -/
theorem C6_fixed_destination_witness :
    connects sampleTrace = [Call.connect "127.0.0.1" 9001] :=
  (C6_fixed_destination sampleConstants sampleProcessor sampleEditor sampleEditor
    sampleTrace).1 true (by decide)

/-- Witness for C8 on a list with a slider, a parameter without an ID, a parameter
of unknown type and a toggle button: one slider, one toggle button, two
components, and a `setSize` call with height 90. -/
theorem C8_editor_size_witness :
    (∀ w hgt, Call.setSize w hgt ∈ builtTrace sampleConstants mixedProcessor true ↔
      w = sampleConstants.editorWidth ∧
      hgt = 2 * sampleConstants.editorMargin
        + sampleConstants.sliderHeight
          * (builtEditor sampleConstants mixedProcessor true).sliders.length
        + sampleConstants.buttonHeight
          * (builtEditor sampleConstants mixedProcessor true).toggles.length
        + sampleConstants.comboBoxHeight
          * (builtEditor sampleConstants mixedProcessor true).comboBoxes.length
        + sampleConstants.editorPadding
          * (builtEditor sampleConstants mixedProcessor true).components.length) ∧
    (builtEditor sampleConstants mixedProcessor true).sliders.length
      = (paramsOfType mixedProcessor "Slider").length :=
  ⟨(C8_editor_size sampleConstants mixedProcessor true
      (builtEditor sampleConstants mixedProcessor true)
      (builtTrace sampleConstants mixedProcessor true) (by decide)).2.1 (by decide),
   (C8_editor_size sampleConstants mixedProcessor true
      (builtEditor sampleConstants mixedProcessor true)
      (builtTrace sampleConstants mixedProcessor true) (by decide)).2.2.1⟩

/-- Witness for C2 on the sample editor: the slider built from the parameter `f`
is widget `2` and carries the handler capturing itself and `f`. -/
theorem C2_value_change_message_witness :
    ∃ w, sampleEditor.heap[2]? = some w ∧ w.cls = .slider ∧
      w.onChange = some (.sliderOnValueChange 2 "f") :=
  (C2_value_change_message sampleConstants sampleProcessor true sampleEditor sampleTrace
    (by decide)).2.2.1 "f" 2 (by decide)

/-- Witness for the amended C5 on the sample processor, all of whose parameters
have a known type. -/
theorem C5_components_of_typed_parameters_witness :
    componentsMatchParameters sampleConstants sampleProcessor true :=
  (C5_components_of_typed_parameters sampleConstants sampleProcessor true (by
    intro i q hq
    rcases i with _ | _ | _ | _ | _ | _ | i
    · decide
    · decide
    · decide
    · decide
    · decide
    · decide
    · simp [sampleProcessor] at hq)).1

/-- Witness for C9 on the sample processor. -/
theorem C9_lookups_succeed_witness :
    ∃ e tr, ctor sampleConstants sampleProcessor true = some (e, tr) ∧
      ∀ mode, ∃ e1,
        updateUIcomponents { sampleProcessor with paramModeTargetValue := mode } e
          = some (e1, []) := by
  obtain ⟨e, tr, h, _, hu⟩ :=
    C9_lookups_succeed sampleConstants sampleProcessor true
      (by
        intro i hi
        rcases i with _ | _ | _ | _ | _ | _ | i
        · exact ⟨_, rfl, by decide⟩
        · exact ⟨_, rfl, by decide⟩
        · exact ⟨_, rfl, by decide⟩
        · exact ⟨_, rfl, by decide⟩
        · exact ⟨_, rfl, by decide⟩
        · exact ⟨_, rfl, by decide⟩
        · simp [sampleProcessor] at hi
          omega)
      ⟨⟨"f", "f", "", 0⟩, by decide, rfl⟩ ⟨⟨"l", "l", "", 0⟩, by decide, rfl⟩
      ⟨⟨"m", "m", "", 0⟩, by decide, rfl⟩ ⟨⟨"a", "a", "", 0⟩, by decide, rfl⟩
      ⟨⟨"r", "r", "", 0⟩, by decide, rfl⟩
  exact ⟨e, tr, h, hu⟩

/-- Witness for C7 on the sample editor: `resized` completes, the running
rectangle ends with height zero, and the second component (widget `2`) gets its
row. -/
theorem C7_vertical_stack_witness :
    ∃ (e1 : WahWahAudioProcessorEditor) (r1 : Rectangle),
      resized sampleConstants sampleEditor = some (e1, []) ∧ r1.h = 0 ∧
      ∃ w, sampleEditor.heap[2]? = some w ∧ w.cls ≠ .label ∧
        boundsAt e1 2 = some (Rectangle.mk
          (sampleConstants.editorMargin + sampleConstants.labelWidth)
          (rowTop sampleConstants sampleEditor.heap sampleEditor.components 1)
          (max 0 (sampleConstants.editorWidth - 2 * sampleConstants.editorMargin
            - sampleConstants.labelWidth))
          (nominalHeight sampleConstants w.cls)) := by
  obtain ⟨e1, r1, h1, _, h3, h4, _⟩ :=
    C7_vertical_stack sampleConstants sampleProcessor true sampleEditor sampleTrace
      (by decide) (by decide) (by decide) (by decide) (by decide) (by decide) (by decide)
      (by decide) (by decide) (by decide) (by decide)
  exact ⟨e1, r1, h1, h3, h4 1 2 (by decide)⟩

end WahWah
